import Mathlib

/-!
# Verification of the chat application's routing, tool, and attachment logic

Shallow embedding of the relevant parts of the repository:

* `src/components/Chat.js` (here `src/unnamed/part_000`): `parseCSV`, `handleDrop` /
  `handleFileSelect`, and `handleSend` (intent classification regexes, prompt assembly,
  message persistence, streaming loop with cooperative abort).
* `src/services/gemini.js`: the `CODE_KEYWORDS` regex.
* `src/services/jsonTools.js`: `getVideos`, `computeStatsJsonTool`,
  `plotMetricVsTimeTool`, `playVideoTool`.
* `src/components/YoutubeDownload.js` (here `src/unnamed/part_001`): `clampInt`,
  `handleDownload`.
* `src/services/csvTools.js` is not part of the provided sources; the engagement-ratio
  column it provides is modelled from the specification (see `engagementRatio` below).

Conventions of the embedding:
* JS numbers are embedded as `ℚ` (exact rationals).  IEEE-754 rounding, `Infinity`
  and decimal float formatting are outside the scope of the claims; display-only
  number formatting (`toFixed`, `Math.sqrt` for the `std` display field) is passed
  in as an environment parameter.
* JS values parsed from JSON are embedded as `JsonVal`; `undefined` is `Option.none`
  at use sites.  Property access on `null` throws a `TypeError` in JS and is embedded
  as `Except.error`.
* The platform `Date` library (`new Date`, `toISOString`) is external and passed in as
  parameters (`parseDate`, `isoDate`).
* Regexes are embedded by a small word-boundary matcher (`Pat`, `seqTest`): every
  alternative used by the source starts and ends with a `\w` character, so a `\b`
  boundary check reduces to "the neighbouring character is not a word character";
  `.` in the source regexes does not match a newline, and `/i` is embedded by
  lower-casing the subject (all patterns are ASCII).
-/

namespace ChatApp

/-! ## JS string helpers (kernel-reduction friendly: we avoid `String.trim`/`map`) -/

/-- Embeds `\w` of JS regexes: `[A-Za-z0-9_]`. -/
def isWordChar (c : Char) : Bool :=
  ('a' ≤ c && c ≤ 'z') || ('A' ≤ c && c ≤ 'Z') || ('0' ≤ c && c ≤ '9') || c = '_'

/-- JS whitespace (`\s`, `String.prototype.trim`): modelled by `Char.isWhitespace`
(ASCII space, tab, CR, LF; exotic unicode spaces are not used by the claims). -/
def isJsSpace (c : Char) : Bool := c.isWhitespace

/-- Lower-case a character list (embeds the `/i` regex flag for ASCII patterns). -/
def lowerChars (cs : List Char) : List Char := cs.map Char.toLower

/-- Embeds `String.prototype.trim()` on a character list. -/
def trimChars (cs : List Char) : List Char :=
  ((cs.dropWhile isJsSpace).reverse.dropWhile isJsSpace).reverse

/-- Embeds `String.prototype.trim()`. -/
def jsTrim (s : String) : String := ⟨trimChars s.toList⟩

/-! ## Word-boundary regex matcher -/

/-- One atom of a regex alternative: a literal character, or `.?`
(an optional single character that may not be a newline). -/
inductive Pat where
  | lit (c : Char)
  | anyOpt
deriving DecidableEq

/-- The alternative consisting of the literal characters of `s`. -/
def lits (s : String) : List Pat := s.toList.map Pat.lit

/-- Match a list of atoms at the head of `cs`.  `prev` is the character just before the
current position (`none` at the start of the subject); the returned pairs are the
possible `(last consumed character, remaining subject)` states (several because `.?`
may or may not consume). -/
def matchPats : List Pat → Option Char → List Char → List (Option Char × List Char)
  | [], prev, cs => [(prev, cs)]
  | Pat.lit _ :: _, _, [] => []
  | Pat.lit c :: ps, _, d :: cs => if d = c then matchPats ps (some d) cs else []
  | Pat.anyOpt :: ps, prev, [] => matchPats ps prev []
  | Pat.anyOpt :: ps, prev, d :: cs =>
      matchPats ps prev (d :: cs) ++
        (if d = '\n' then [] else matchPats ps (some d) cs)

/-- Embeds `\b` before an alternative that starts with a word character: the previous character
must be absent or a non-word character. -/
def boundaryBefore : Option Char → Bool
  | none => true
  | some c => !(isWordChar c)

/-- Embeds `\b` after an alternative that ends with a word character: the next character must be
absent or a non-word character. -/
def boundaryAfter : List Char → Bool
  | [] => true
  | d :: _ => !(isWordChar d)

/-- All ways a group `\b(alt₁|alt₂|…)\b` can match exactly at the current position. -/
def groupMatchesHere (g : List (List Pat)) (prev : Option Char) (cs : List Char) :
    List (Option Char × List Char) :=
  if boundaryBefore prev then
    g.flatMap (fun alt => (matchPats alt prev cs).filter (fun pr => boundaryAfter pr.2))
  else []

/-- Search for a match of group `g` at the current position or anywhere later
(unanchored search — any characters, including newlines, may be skipped), then
continue with `k`. -/
def searchFirst (g : List (List Pat)) (k : Option Char → List Char → Bool) :
    Option Char → List Char → Bool
  | prev, [] => (groupMatchesHere g prev []).any (fun pr => k pr.1 pr.2)
  | prev, d :: rest =>
      (groupMatchesHere g prev (d :: rest)).any (fun pr => k pr.1 pr.2)
      || searchFirst g k (some d) rest

/-- Search for a match of group `g`, where the characters skipped before the match are
consumed by a `.*` of the source regex — so none of them may be a newline. -/
def searchGap (g : List (List Pat)) (k : Option Char → List Char → Bool) :
    Option Char → List Char → Bool
  | prev, [] => (groupMatchesHere g prev []).any (fun pr => k pr.1 pr.2)
  | prev, d :: rest =>
      (groupMatchesHere g prev (d :: rest)).any (fun pr => k pr.1 pr.2)
      || (!(d = '\n') && searchGap g k (some d) rest)

/-- Test of `\bG₁\b.*\bG₂\b.*…` applied after the first group has matched. -/
def seqTail : List (List (List Pat)) → Option Char → List Char → Bool
  | [], _, _ => true
  | g :: gs, prev, cs => searchGap g (seqTail gs) prev cs

/-- Unanchored, case-insensitive test of a regex of the form
`/\bG₁\b.*\bG₂\b.*…\bGₙ\b/i` against `s`. -/
def seqTest (gs : List (List (List Pat))) (s : String) : Bool :=
  match gs with
  | [] => true
  | g :: rest => searchFirst g (seqTail rest) none (lowerChars s.toList)

/-! ## The intent-classifier regexes of `handleSend` (Chat.js 489–511) and
`CODE_KEYWORDS` (gemini.js 12–13) -/

/-- Embeds `/\b(generate an image|make an image|create an image|image generation)\b/i` -/
def genImagePhrases : List (List Pat) :=
  [lits "generate an image", lits "make an image", lits "create an image",
   lits "image generation"]

/-- Drop a literal (already lower-case) pattern from the head of `cs`,
comparing case-insensitively. -/
def dropLitsCI : List Char → List Char → Option (List Char)
  | [], cs => some cs
  | _ :: _, [] => none
  | p :: ps, d :: cs => if d.toLower = p then dropLitsCI ps cs else none

/-- Embeds `/^\s*generateimage\s*:/i` applied to `cs`; on success returns the characters after
the colon (used both as a test and for the `replace` that strips the command). -/
def genImageCmdSplit (cs : List Char) : Option (List Char) :=
  match dropLitsCI "generateimage".toList (cs.dropWhile isJsSpace) with
  | none => none
  | some r =>
      match r.dropWhile isJsSpace with
      | ':' :: tail => some tail
      | _ => none

/-- Embeds `wantsGenerateImage` (Chat.js 489–492). -/
def wantsGenerateImage (text : String) : Bool :=
  seqTest [[lits "generateimage"]] text
  || (genImageCmdSplit text.toList).isSome
  || seqTest [genImagePhrases] text

/-- Embeds `wantsMetricPlot` (Chat.js 494–496):
`/\bplot_metric_vs_time\b/i || /\b(plot|graph)\b.*\b(views?|likes?|comments?)\b.*\b(time)\b/i`. -/
def wantsMetricPlot (text : String) : Bool :=
  seqTest [[lits "plot_metric_vs_time"]] text
  || seqTest [[lits "plot", lits "graph"],
      [lits "views", lits "view", lits "likes", lits "like",
       lits "comments", lits "comment"],
      [lits "time"]] text

/-- Embeds `wantsStatsJson` (Chat.js 498–502):
`/\bcompute_stats_json\b/i ||
 /\b(stats?|statistics?|average|mean|median|distribution)\b.*\b(views?|likes?|comments?|duration)\b/i`. -/
def wantsStatsJson (text : String) : Bool :=
  seqTest [[lits "compute_stats_json"]] text
  || seqTest [[lits "stats", lits "stat", lits "statistics", lits "statistic",
       lits "average", lits "mean", lits "median", lits "distribution"],
      [lits "views", lits "view", lits "likes", lits "like",
       lits "comments", lits "comment", lits "duration"]] text

/-- Embeds `wantsPlayVideo` (Chat.js 504–506):
`/\bplay_video\b/i || /\b(play|open)\b.*\b(video)\b/i`. -/
def wantsPlayVideo (text : String) : Bool :=
  seqTest [[lits "play_video"]] text
  || seqTest [[lits "play", lits "open"], [lits "video"]] text

/-- Embeds `PYTHON_ONLY_KEYWORDS` (Chat.js 510): `.?` of `time.?series` etc. becomes
`Pat.anyOpt`. -/
def pythonOnlyTest (text : String) : Bool :=
  seqTest [[lits "regression", lits "scatter", lits "histogram", lits "seaborn",
    lits "matplotlib", lits "numpy",
    lits "time" ++ [Pat.anyOpt] ++ lits "series",
    lits "heatmap",
    lits "box" ++ [Pat.anyOpt] ++ lits "plot",
    lits "violin", lits "distribut",
    lits "linear" ++ [Pat.anyOpt] ++ lits "model",
    lits "logistic", lits "forecast",
    lits "trend" ++ [Pat.anyOpt] ++ lits "line"]] text

/-- Embeds `CODE_KEYWORDS` (gemini.js 12–13). -/
def codeKeywordsTest (text : String) : Bool :=
  seqTest [[lits "plot", lits "chart", lits "graph", lits "analyz", lits "statistic",
    lits "regression", lits "correlat", lits "histogram", lits "visualiz",
    lits "calculat", lits "compute", lits "run code", lits "write code",
    lits "execute", lits "pandas", lits "numpy", lits "matplotlib",
    lits "csv", lits "data"]] text

end ChatApp

-- sanity examples for the classifier embedding (removed before finishing? kept: they are
-- plain theorems about the development)
example : ChatApp.wantsStatsJson "average likes" = true := by decide
example : ChatApp.codeKeywordsTest "average likes" = false := by decide
example : ChatApp.pythonOnlyTest "average likes" = false := by decide
example : ChatApp.wantsMetricPlot "plot views vs time" = true := by decide
example : ChatApp.wantsGenerateImage "generate an image of a cat" = true := by decide
example : ChatApp.codeKeywordsTest "please analyze my data" = true := by decide
example : ChatApp.codeKeywordsTest "please analyze" = false := by decide

namespace ChatApp

/-! ## JSON values (results of `JSON.parse`) and JS coercions -/

/-- A JSON value.  `JSON.parse` output contains no `undefined` and no duplicate object
keys (the parser keeps the last duplicate), so objects are embedded as association
lists without duplicate keys and `undefined` is `Option.none` at use sites. -/
inductive JsonVal where
  | jnull
  | jbool (b : Bool)
  | jnum (q : ℚ)
  | jstr (s : String)
  | jarr (xs : List JsonVal)
  | jobj (fields : List (String × JsonVal))
deriving BEq, Inhabited

/-- JS truthiness of a JSON value (`NaN` cannot occur in `JSON.parse` output). -/
def jsFalsy : JsonVal → Bool
  | .jnull => true
  | .jbool b => !b
  | .jnum q => q = 0
  | .jstr s => s = ""
  | .jarr _ => false
  | .jobj _ => false

/-- Truthiness of a possibly-`undefined` value. -/
def jsTruthy : Option JsonVal → Bool
  | none => false
  | some v => !(jsFalsy v)

/-- Lookup of an own property in an object's field list. -/
def objLookup (fields : List (String × JsonVal)) (k : String) : Option JsonVal :=
  match fields.find? (fun f => f.1 == k) with
  | some f => some f.2
  | none => none

/-- JS property access `v[k]` on a JSON value.  On `null` this throws a `TypeError`
(embedded as `Except.error`); on other primitives and on arrays it yields `undefined`
for the data keys used by the source (`view_count`, `statistics`, `published_at`, …;
inherited properties such as `length` are not among them). -/
def jsGet (v : JsonVal) (k : String) : Except Unit (Option JsonVal) :=
  match v with
  | .jnull => .error ()
  | .jobj fs => .ok (objLookup fs k)
  | _ => .ok none

/-- Optional-chained access `o?.[k]` where `o` is a possibly-`undefined` value:
never throws (`null`/`undefined` short-circuit to `undefined`). -/
def optChainGet (o : Option JsonVal) (k : String) : Option JsonVal :=
  match o with
  | some (.jobj fs) => objLookup fs k
  | _ => none

/-- Embeds `a ?? b` step: `a` is kept unless it is `null`/`undefined`. -/
def nullish : Option JsonVal → Option JsonVal
  | some .jnull => none
  | o => o

/-- Embeds `a || b` over possibly-`undefined` values (truthiness based). -/
def jsOr (a b : Option JsonVal) : Option JsonVal :=
  if jsTruthy a then a else b

/-! ### `Number(x)` -/

/-- Numeric value of a decimal digit. -/
def digitVal (c : Char) : ℕ := c.toNat - 48

def isDigitB (c : Char) : Bool := '0' ≤ c && c ≤ '9'

def digitsVal (ds : List Char) : ℕ := ds.foldl (fun a c => a * 10 + digitVal c) 0

/-- Parse the decimal-literal part (integer and optional fraction) of a JS numeric
string.  Returns the value and the rest.  Fails when no digit is present at all. -/
def parseDecPart (cs : List Char) : Option (ℚ × List Char) :=
  let ds := cs.takeWhile isDigitB
  let r1 := cs.dropWhile isDigitB
  match r1 with
  | '.' :: r2 =>
      let fs := r2.takeWhile isDigitB
      let r3 := r2.dropWhile isDigitB
      if ds.isEmpty && fs.isEmpty then none
      else some ((digitsVal ds : ℚ) + (digitsVal fs : ℚ) / ((10 : ℚ) ^ fs.length), r3)
  | _ => if ds.isEmpty then none else some ((digitsVal ds : ℚ), r1)

/-- Parse an optional exponent `e±ddd`.  An exponent marker without digits makes the
whole literal invalid (JS `Number("1e")` is `NaN`). -/
def parseExpPart (cs : List Char) : Option (ℤ × List Char) :=
  match cs with
  | 'e' :: r | 'E' :: r =>
      let (sgn, r1) : ℤ × List Char :=
        match r with
        | '+' :: t => (1, t)
        | '-' :: t => (-1, t)
        | t => (1, t)
      let ds := r1.takeWhile isDigitB
      let r2 := r1.dropWhile isDigitB
      if ds.isEmpty then none else some (sgn * (digitsVal ds : ℤ), r2)
  | _ => some (0, cs)

/-- Embeds `Number(s)` for a string, as an exact rational; `none` is `NaN`.
Embeds the decimal grammar (sign, digits, fraction, exponent); the whole trimmed
string must be consumed.  `""` is `0`.  (`Infinity` and the hex/octal/binary literal
forms are IEEE specials / unused by the data at hand and are not modelled.) -/
def jsStringToNumber (s : String) : Option ℚ :=
  let cs := trimChars s.toList
  if cs.isEmpty then some 0
  else
    let (sgn, cs1) : ℚ × List Char :=
      match cs with
      | '+' :: t => (1, t)
      | '-' :: t => (-1, t)
      | t => (1, t)
    match parseDecPart cs1 with
    | none => none
    | some (m, r1) =>
        match parseExpPart r1 with
        | none => none
        | some (e, r2) => if r2.isEmpty then some (sgn * m * (10 : ℚ) ^ e) else none

/-- Embeds `Number(x)` with `NaN` as `none`.  `Number(undefined)` is `NaN`, `Number(null)` is
`0`.  Array/object coercion through `toString` is not modelled (objects give `NaN`,
which is faithful; `Number([])` = `0` is an unused corner). -/
def jsNumber : Option JsonVal → Option ℚ
  | none => none
  | some .jnull => some 0
  | some (.jbool b) => some (if b then 1 else 0)
  | some (.jnum q) => some q
  | some (.jstr s) => jsStringToNumber s
  | some (.jarr _) => none
  | some (.jobj _) => none

/-! ## `jsonTools.js` -/

/-- Embeds `getVideos` (jsonTools.js 94–99): `!channelJson` is JS falsiness. -/
def getVideos (channelJson : JsonVal) : List JsonVal :=
  if jsFalsy channelJson then []
  else
    match channelJson with
    | .jobj fs =>
        (match objLookup fs "videos" with
         | some (.jarr xs) => xs
         | _ =>
            match objLookup fs "items" with
            | some (.jarr xs) => xs
            | _ => [])
    | _ => []

/-- The raw field value used by `computeStatsJsonTool` (201–205) and
`plotMetricVsTimeTool` (112–117):
`v[key] ?? v[key+"_count"] ?? v.statistics?.[key] ?? v.statistics?.[key+"_count"]
  ?? (key === "view_count" ? v.view_count || v.statistics?.viewCount : undefined)`.
Throws (`TypeError`) exactly when `v` is `null`. -/
def rawField (v : JsonVal) (key : String) : Except Unit (Option JsonVal) :=
  match jsGet v key with
  | .error e => .error e
  | .ok a =>
    match nullish a with
    | some x => .ok (some x)
    | none =>
      match jsGet v (key ++ "_count") with
      | .error e => .error e
      | .ok b =>
        match nullish b with
        | some x => .ok (some x)
        | none =>
          match jsGet v "statistics" with
          | .error e => .error e
          | .ok st =>
            match nullish (optChainGet st key) with
            | some x => .ok (some x)
            | none =>
              match nullish (optChainGet st (key ++ "_count")) with
              | some x => .ok (some x)
              | none =>
                if key = "view_count" then
                  match jsGet v "view_count" with
                  | .error e => .error e
                  | .ok vc => .ok (jsOr vc (optChainGet st "viewCount"))
                else .ok none

/-- Embeds `Number(raw)` with the `Number.isNaN` filter of the tools: the numeric value of
the requested field of one video, `none` when it is not numeric. -/
def extractNum (v : JsonVal) (key : String) : Except Unit (Option ℚ) :=
  match rawField v key with
  | .error e => .error e
  | .ok raw => .ok (jsNumber raw)

/-- Embeds `List.mapM` specialised to `Except` by structural recursion (for easy lemmas). -/
def mapExcept {α β : Type} (f : α → Except Unit β) : List α → Except Unit (List β)
  | [] => .ok []
  | x :: xs =>
      match f x with
      | .error e => .error e
      | .ok y =>
          match mapExcept f xs with
          | .error e => .error e
          | .ok ys => .ok (y :: ys)

/-- The stats record of `computeStatsJsonTool` (222–230).  The source stores
`std = Math.sqrt(variance)`; the square root is irrational, so the record carries the
exact `variance` (none of the claims constrain the `std` display value). -/
structure JsonStats where
  field : String
  count : ℕ
  mean : ℚ
  median : ℚ
  variance : ℚ
  min : ℚ
  max : ℚ
deriving BEq

/-- A tool result: the error-marker object (an object whose error field carries `msg`) or the normal payload. -/
inductive StatsOut where
  | errMarker (msg : String)
  | stats (s : JsonStats)

/-- Embeds `computeStatsJsonTool` (jsonTools.js 187–231).  `Except.error` embeds a thrown
`TypeError` (property access on a `null` video). -/
def computeStatsJsonTool (channelJson : JsonVal) (field : String) :
    Except Unit StatsOut :=
  let videos := getVideos channelJson
  if videos.isEmpty then
    .ok (.errMarker "No videos loaded. Please attach a YouTube channel JSON file first.")
  else
    let key := if field = "" then "view_count" else field
    match mapExcept (fun v => extractNum v key) videos with
    | .error e => .error e
    | .ok vals =>
      let values := vals.filterMap id
      if values.isEmpty then
        .ok (.errMarker ("No numeric values found for field \"" ++ field ++ "\"."))
      else
        let sorted := values.insertionSort (· ≤ ·)
        let count := values.length
        let sum : ℚ := values.foldl (· + ·) 0
        let mean := sum / (count : ℚ)
        let median :=
          if count % 2 = 0 then
            ((sorted.getD (count / 2 - 1) 0) + sorted.getD (count / 2) 0) / 2
          else sorted.getD ((count - 1) / 2) 0
        let variance := (values.foldl (fun a b => a + (b - mean) ^ 2) 0) / (count : ℚ)
        .ok (.stats ⟨field, count, mean, median, variance,
          sorted.headD 0, sorted.getLastD 0⟩)

end ChatApp

namespace ChatApp

/-- Substring match at the head of the subject. -/
def isSubAt : List Char → List Char → Bool
  | [], _ => true
  | _ :: _, [] => false
  | p :: ps, d :: ds => p = d && isSubAt ps ds

/-- Embeds `String.prototype.includes` on character lists (`pat` anywhere in the subject). -/
def containsSub (pat : List Char) : List Char → Bool
  | [] => pat.isEmpty
  | d :: rest => isSubAt pat (d :: rest) || containsSub pat rest

/-- Embeds `v.published_at || v.publishedAt || v.snippet?.publishedAt`
(plotMetricVsTimeTool, jsonTools.js 110).  Throws exactly when `v` is `null`. -/
def dateRaw (v : JsonVal) : Except Unit (Option JsonVal) :=
  match jsGet v "published_at" with
  | .error e => .error e
  | .ok a =>
    match jsGet v "publishedAt" with
    | .error e => .error e
    | .ok b =>
      match jsGet v "snippet" with
      | .error e => .error e
      | .ok sn => .ok (jsOr a (jsOr b (optChainGet sn "publishedAt")))

/-- Embeds `(v.title || v.snippet?.title || '')` as a string.  Non-string truthy titles (which
would flow into `String.prototype.slice`) do not occur in channel metadata and are
embedded as `""`. -/
def titleOf (v : JsonVal) : Except Unit String :=
  match jsGet v "title" with
  | .error e => .error e
  | .ok a =>
    match jsGet v "snippet" with
    | .error e => .error e
    | .ok sn =>
      .ok (match jsOr a (optChainGet sn "title") with
           | some (.jstr s) => if s = "" then "" else s
           | _ => "")

/-- One data point of the metric-vs-time chart. -/
structure PlotPoint where
  date : String
  label : String
  value : ℚ
deriving BEq

/-- The per-video mapping of `plotMetricVsTimeTool` (jsonTools.js 109–126): `none` is
the `return null` of excluded videos.  `parseDate` models `new Date(raw)` (returning
`none` for an invalid date, i.e. `Number.isNaN(+d)`), `isoDate` models
`d.toISOString().slice(0, 10)`. -/
def toPoint (parseDate : JsonVal → Option Int) (isoDate : Int → String)
    (key : String) (v : JsonVal) : Except Unit (Option PlotPoint) :=
  match dateRaw v with
  | .error e => .error e
  | .ok rd =>
    match titleOf v with
    | .error e => .error e
    | .ok title =>
      match extractNum v key with
      | .error e => .error e
      | .ok n =>
        if jsTruthy rd then
          match rd with
          | some rv =>
              (match parseDate rv, n with
               | some t, some q =>
                   .ok (some ⟨isoDate t, (title.toList.take 60).asString, q⟩)
               | _, _ => .ok none)
          | none => .ok none
        else .ok none

/-- Result of `plotMetricVsTimeTool`: error marker or the chart payload
(tagged with a `_chartType` of metric_vs_time, carrying `metric` and `data`). -/
inductive PlotOut where
  | errMarker (msg : String)
  | chart (metric : String) (data : List PlotPoint)

/-- Embeds `plotMetricVsTimeTool` (jsonTools.js 101–141).  The data list is sorted by the
comparator `(a, b) => a.date < b.date ? -1 : a.date > b.date ? 1 : 0`, embedded as a
stable sort by `a.date ≤ b.date`. -/
def plotMetricVsTimeTool (parseDate : JsonVal → Option Int) (isoDate : Int → String)
    (channelJson : JsonVal) (metric : String) : Except Unit PlotOut :=
  let videos := getVideos channelJson
  if videos.isEmpty then
    .ok (.errMarker "No videos loaded. Please attach a YouTube channel JSON file first.")
  else
    let key := if metric = "" then "view_count" else metric
    match mapExcept (toPoint parseDate isoDate key) videos with
    | .error e => .error e
    | .ok pts =>
      let data := (pts.filterMap id).insertionSort (fun a b => a.date ≤ b.date)
      if data.isEmpty then
        .ok (.errMarker ("Could not find numeric data for metric \"" ++ metric ++ "\"."))
      else .ok (.chart metric data)

/-- One element of `normalised` in `playVideoTool` (jsonTools.js 149–163). -/
structure NormVideo where
  videoId : Option JsonVal
  title : String
  thumbnailUrl : String
  viewCount : ℚ
  url : Option String

/-- Embeds `(… || '')` for string-valued fields (thumbnail URLs). -/
def strOrEmpty (o : Option JsonVal) : String :=
  match o with
  | some (.jstr s) => if s = "" then "" else s
  | _ => ""

/-- The normalisation of one video in `playVideoTool` (jsonTools.js 149–163).
Throws exactly when `v` is `null`.  Template-literal URLs are modelled for the
string ids produced by channel metadata (float formatting of numeric ids is display
formatting, outside the claims). -/
def normVideo (v : JsonVal) : Except Unit NormVideo :=
  match jsGet v "video_id" with
  | .error e => .error e
  | .ok vid =>
    match jsGet v "id" with
    | .error e => .error e
    | .ok vid2 =>
      match jsGet v "contentDetails" with
      | .error e => .error e
      | .ok cd =>
        match titleOf v with
        | .error e => .error e
        | .ok title =>
          match jsGet v "snippet" with
          | .error e => .error e
          | .ok sn =>
            match jsGet v "thumbnail_url" with
            | .error e => .error e
            | .ok tu =>
              match jsGet v "view_count" with
              | .error e => .error e
              | .ok vc =>
                match jsGet v "statistics" with
                | .error e => .error e
                | .ok st =>
                  match jsGet v "viewCount" with
                  | .error e => .error e
                  | .ok vc2 =>
                    match jsGet v "video_url" with
                    | .error e => .error e
                    | .ok vu =>
                      let thumbs := optChainGet sn "thumbnails"
                      let thumb :=
                        jsOr tu (jsOr (optChainGet (optChainGet thumbs "high") "url")
                          (optChainGet (optChainGet thumbs "default") "url"))
                      let vcRaw :=
                        match nullish vc with
                        | some x => some x
                        | none =>
                          match nullish (optChainGet st "viewCount") with
                          | some x => some x
                          | none =>
                            match nullish vc2 with
                            | some x => some x
                            | none => some (.jnum 0)
                      let viewCount :=
                        match jsNumber vcRaw with
                        | some q => q
                        | none => 0
                      let mkUrl : Option JsonVal → Option String := fun o =>
                        if jsTruthy o then
                          match o with
                          | some (.jstr s) =>
                              some ("https://www.youtube.com/watch?v=" ++ s)
                          | _ => none
                        else none
                      let url :=
                        match vu with
                        | some (.jstr s) =>
                            if s = "" then
                              match mkUrl vid with
                              | some u => some u
                              | none => mkUrl vid2
                            else some s
                        | _ =>
                            match mkUrl vid with
                            | some u => some u
                            | none => mkUrl vid2
                      .ok ⟨jsOr vid (jsOr vid2 (optChainGet cd "videoId")), title,
                        strOrEmpty thumb, viewCount, url⟩

/-- Result of `playVideoTool`: error marker or the chosen video's card fields. -/
inductive PlayOut where
  | errMarker (msg : String)
  | video (videoId : Option JsonVal) (title : String) (thumbnailUrl : String)
      (url : Option String)

/-- Embeds `playVideoTool` (jsonTools.js 143–185). -/
def playVideoTool (channelJson : JsonVal) (which : String) : Except Unit PlayOut :=
  let videos := getVideos channelJson
  if videos.isEmpty then
    .ok (.errMarker "No videos loaded. Please attach a YouTube channel JSON file first.")
  else
    match mapExcept normVideo videos with
    | .error e => .error e
    | .ok normalised =>
      let q := lowerChars which.toList
      let chosen : Option NormVideo :=
        if containsSub "most viewed".toList q || containsSub "top".toList q
            || containsSub "best".toList q then
          (normalised.insertionSort (fun a b => b.viewCount ≤ a.viewCount)).head?
        else if containsSub "least viewed".toList q || containsSub "worst".toList q then
          (normalised.insertionSort (fun a b => a.viewCount ≤ b.viewCount)).head?
        else if !q.isEmpty then
          match normalised.find? (fun nv => containsSub q (lowerChars nv.title.toList)) with
          | some nv => some nv
          | none => normalised.head?
        else normalised.head?
      match chosen with
      | none => .ok (.errMarker "Could not find a matching video in the channel JSON.")
      | some c => .ok (.video c.videoId c.title c.thumbnailUrl c.url)

end ChatApp

namespace ChatApp

/-! ## `toBase64` and `parseCSV` (Chat.js 26–50) -/

/-- UTF-8 encoding of one character (the bytes produced by `TextEncoder`). -/
def utf8Bytes (c : Char) : List ℕ :=
  let n := c.toNat
  if n < 0x80 then [n]
  else if n < 0x800 then [0xC0 + n / 64, 0x80 + n % 64]
  else if n < 0x10000 then [0xE0 + n / 4096, 0x80 + (n / 64) % 64, 0x80 + n % 64]
  else [0xF0 + n / 262144, 0x80 + (n / 4096) % 64, 0x80 + (n / 64) % 64, 0x80 + n % 64]

def base64Alphabet : List Char :=
  "ABCDEFGHIJKLMNOPQRSTUVWXYZabcdefghijklmnopqrstuvwxyz0123456789+/".toList

def b64Char (n : ℕ) : Char := base64Alphabet.getD n 'A'

/-- Standard base64 of a byte list (the behaviour of `btoa`). -/
def encodeB64 : List ℕ → List Char
  | [] => []
  | [a] => [b64Char (a / 4), b64Char (a % 4 * 16), '=', '=']
  | [a, b] => [b64Char (a / 4), b64Char (a % 4 * 16 + b / 16), b64Char (b % 16 * 4), '=']
  | a :: b :: c :: rest =>
      b64Char (a / 4) :: b64Char (a % 4 * 16 + b / 16) ::
        b64Char (b % 16 * 4 + c / 64) :: b64Char (c % 64) :: encodeB64 rest

/-- Embeds `toBase64` (Chat.js 27–32): UTF-8 encode, then `btoa`. -/
def toBase64 (s : String) : String :=
  (encodeB64 (s.toList.flatMap utf8Bytes)).asString

/-- Embeds `split('\n')` etc. on character lists. -/
def splitOnChar (sep : Char) (cs : List Char) : List (List Char) :=
  match cs with
  | [] => [[]]
  | c :: rest =>
      match splitOnChar sep rest with
      | [] => [[]]
      | h :: t => if c = sep then [] :: h :: t else (c :: h) :: t

/-- Embeds `.replace(/^"|"$/g, '')`: one leading and one trailing quote removed. -/
def stripEdgeQuotes (cs : List Char) : List Char :=
  let cs1 := match cs with
    | '"' :: t => t
    | _ => cs
  match cs1.getLast? with
  | some '"' => cs1.dropLast
  | _ => cs1

/-- The value returned by `parseCSV` (Chat.js 34–50). -/
structure CsvParsed where
  headers : List String
  rowCount : ℕ
  preview : String
  base64 : String
  truncated : Bool
deriving BEq

/-- Embeds `parseCSV` (Chat.js 34–50).  The 500 000 cutoff counts characters (`String.length`
counts UTF-16 units in JS; astral characters are not at issue in the claims). -/
def parseCSV (text : String) : Option CsvParsed :=
  let lines := (splitOnChar '\n' text.toList).filter (fun l => !(trimChars l).isEmpty)
  match lines with
  | [] => none
  | first :: _ =>
      let headers := (splitOnChar ',' first).map
        (fun h => (stripEdgeQuotes (trimChars h)).asString)
      let rowCount := lines.length - 1
      let preview := String.intercalate "\n" ((lines.take 6).map List.asString)
      let raw := if text.toList.length > 500000 then (text.toList.take 500000).asString
                 else text
      some ⟨headers, rowCount, preview, toBase64 raw, text.toList.length > 500000⟩

/-! ## Component state and the attach handlers (Chat.js 165–414) -/

/-- The pending-CSV chip: `csvContext` is the file name together with the spread of the parsed record. -/
structure CsvCtx where
  name : String
  headers : List String
  rowCount : ℕ
  preview : String
  base64 : String
  truncated : Bool
deriving BEq

/-- The pending-JSON chip: `jsonContext` carries the file name and `text.length`. -/
structure JsonCtx where
  name : String
  bytes : ℕ
deriving BEq

/-- A structured part of a code-execution response (only the `text` parts are
persisted; code/result/image parts are summarised as `pother`). -/
inductive SPart where
  | ptext (s : String)
  | pother
deriving BEq

/-- One displayed chat message (the fields the claims observe). -/
structure Msg where
  role : String
  content : String
  parts : Option (List SPart)
deriving BEq

/-- The component state captured by the embedded handlers.  `hasSessionCsvRows` is
`sessionCsvRows !== null` (an array is truthy in JS even when empty);
`sessionActive` is the truthiness of `activeSessionId`. -/
structure ChatState where
  input : String
  images : List String
  csvContext : Option CsvCtx
  jsonContext : Option JsonCtx
  channelJson : Option JsonVal
  channelJsonSummary : String
  jsonError : String
  hasSessionCsvRows : Bool
  sessionCsvHeaders : Option (List String)
  csvDataSummary : Option String
  sessionSlimCsv : Option String
  streaming : Bool
  sessionActive : Bool
  messages : List Msg

/-- The outputs of the `csvTools.js` pipeline run at attach time
(`parseCsvToRows` → `enrichWithEngagement` → `computeDatasetSummary` / `buildSlimCsv`).
That file is not part of the provided sources, so the attach handler takes the
pipeline as a parameter; no claim constrains its output values. -/
structure CsvDerived where
  headers : List String
  summary : String
  slim : String

/-- One dropped/picked JSON file.  `JSON.parse` is a platform builtin; its outcome for
the file's text is carried by the input (`parsed = none` means it threw, with
`errMsg` the exception's message). -/
structure JFile where
  name : String
  text : String
  parsed : Option JsonVal
  errMsg : String

/-- One attach operation: the first `.csv` file, the first `.json` file, and any
image files of the drop / file-picker selection. -/
structure AttachInput where
  csvFile : Option (String × String)
  jsonFile : Option JFile
  imageData : List String

/-- The attach handler.  `handleDrop` (Chat.js 291–354) and `handleFileSelect`
(Chat.js 356–414) perform the identical state updates on their respective file
lists, so both are embedded by this one function.  `deriv` is the `csvTools.js`
pipeline (see `CsvDerived`), `summarize` is `summarizeChannelJson` (Chat.js 52–99,
a display summary built with the platform Date library; its output is not
constrained by any claim). -/
def handleAttach (deriv : String → CsvDerived) (summarize : JsonVal → String)
    (inp : AttachInput) (st : ChatState) : ChatState :=
  let st1 :=
    match inp.csvFile with
    | none => st
    | some (name, text) =>
        match parseCSV text with
        | none => st
        | some parsed =>
            let d := deriv text
            { st with
              csvContext := some ⟨name, parsed.headers, parsed.rowCount,
                parsed.preview, parsed.base64, parsed.truncated⟩
              jsonContext := none
              channelJson := none
              channelJsonSummary := ""
              jsonError := ""
              hasSessionCsvRows := true
              sessionCsvHeaders := some d.headers
              csvDataSummary := some d.summary
              sessionSlimCsv := some d.slim }
  let st2 :=
    match inp.jsonFile with
    | none => st1
    | some jf =>
        match jf.parsed with
        | some obj =>
            { st1 with
              jsonContext := some ⟨jf.name, jf.text.toList.length⟩
              channelJson := some obj
              channelJsonSummary := summarize obj
              jsonError := ""
              csvContext := none
              hasSessionCsvRows := false
              sessionCsvHeaders := none
              csvDataSummary := none
              sessionSlimCsv := none }
        | none =>
            { st1 with
              jsonContext := some ⟨jf.name, jf.text.toList.length⟩
              channelJson := none
              channelJsonSummary := ""
              jsonError := "Invalid JSON: " ++
                (if jf.errMsg = "" then "parse failed" else jf.errMsg) }
  { st2 with images := st2.images ++ inp.imageData }

end ChatApp

namespace ChatApp

/-! ## Routing (Chat.js 508–522) -/

/-- Embeds `PYTHON_ONLY_KEYWORDS.test(text)` (Chat.js 511). -/
def wantPythonOnly (text : String) : Bool := pythonOnlyTest text

/-- Embeds `CODE_KEYWORDS.test(text) && !sessionCsvRows` (Chat.js 512). -/
def wantCode (text : String) (hasSessionCsvRows : Bool) : Bool :=
  codeKeywordsTest text && !hasSessionCsvRows

/-- Embeds `needsBase64 = !!capturedCsv && wantPythonOnly` (Chat.js 516). -/
def needsBase64 (capturedCsv : Option CsvCtx) (text : String) : Bool :=
  capturedCsv.isSome && wantPythonOnly text

/-- Embeds `useTools = !!sessionCsvRows && !wantPythonOnly && !wantCode && !capturedCsv`
(Chat.js 521). -/
def useToolsFlag (text : String) (hasSessionCsvRows : Bool)
    (capturedCsv : Option CsvCtx) : Bool :=
  hasSessionCsvRows && !wantPythonOnly text && !wantCode text hasSessionCsvRows
    && capturedCsv.isNone

/-- Embeds `useCodeExecution = wantPythonOnly || wantCode` (Chat.js 522). -/
def useCodeExecution (text : String) (hasSessionCsvRows : Bool) : Bool :=
  wantPythonOnly text || wantCode text hasSessionCsvRows

/-- Truthiness of the parsed channel JSON (`channelJson && …`, Chat.js 653). -/
def channelJsonTruthy (st : ChatState) : Bool :=
  match st.channelJson with
  | some v => !(jsFalsy v)
  | none => false

/-- The reply strategy chosen by `handleSend` for one message, in the source's branch
order: the generate-image path (610), the local channel-JSON tool path (653), the
CSV function-calling path (`useTools`, 792), or the streaming call with the
`useCodeExecution` flag (820). -/
inductive Strategy where
  | imageGen
  | jsonTools
  | csvTools
  | stream (useCodeExec : Bool)
deriving DecidableEq

/-- The strategy `handleSend` dispatches to for the state `st` (text is
`input.trim()`). -/
def strategyOf (st : ChatState) : Strategy :=
  let text := jsTrim st.input
  if wantsGenerateImage text then .imageGen
  else if channelJsonTruthy st &&
      (wantsMetricPlot text || wantsStatsJson text || wantsPlayVideo text) then
    .jsonTools
  else if useToolsFlag text st.hasSessionCsvRows st.csvContext then .csvTools
  else .stream (useCodeExecution text st.hasSessionCsvRows)

/-! ## Prompt assembly (Chat.js 524–587) -/

def joinComma (xs : List String) : String := String.intercalate ", " xs

/-- Embeds `sessionSummary = csvDataSummary || ''` (Chat.js 526). -/
def sessionSummaryOf (st : ChatState) : String := st.csvDataSummary.getD ""

/-- Embeds `slimCsvBlock` (Chat.js 529–531). -/
def slimCsvBlockOf (st : ChatState) : String :=
  match st.sessionSlimCsv with
  | some s =>
      if s = "" then ""
      else "\n\nFull dataset (key columns):\n```csv\n" ++ s ++ "\n```"
  | none => ""

/-- The `[CSV File: …]` identity line. -/
def csvHeaderLine (c : CsvCtx) : String :=
  "[CSV File: \"" ++ c.name ++ "\" | " ++ toString c.rowCount ++ " rows | Columns: "
    ++ joinComma c.headers ++ "]"

/-- Embeds `csvPrefix` (Chat.js 533–559).  The base64 dataset appears in the prompt only in
the `needsBase64` branch. -/
def csvBlockOf (st : ChatState) : String :=
  let text := jsTrim st.input
  match st.csvContext with
  | some c =>
      if needsBase64 (some c) text then
        csvHeaderLine c ++ "\n\n" ++ sessionSummaryOf st ++ slimCsvBlockOf st
          ++ "\n\nIMPORTANT — to load the full data in Python use this exact pattern:\n```python\nimport pandas as pd, io, base64\ndf = pd.read_csv(io.BytesIO(base64.b64decode(\""
          ++ c.base64 ++ "\")))\n```\n\n---\n\n"
      else
        csvHeaderLine c ++ "\n\n" ++ sessionSummaryOf st ++ slimCsvBlockOf st
          ++ "\n\n---\n\n"
  | none =>
      if sessionSummaryOf st ≠ "" then
        "[CSV columns: "
          ++ (match st.sessionCsvHeaders with
              | some hs => joinComma hs
              | none => "undefined")
          ++ "]\n\n" ++ sessionSummaryOf st ++ "\n\n---\n\n"
      else ""

/-- Embeds the `Array.isArray(channelJson?.videos)` dispatch with its unknown-count default (Chat.js 563–569). -/
def videoCountStr (o : Option JsonVal) : String :=
  match o with
  | some (.jobj fs) =>
      (match objLookup fs "videos" with
       | some (.jarr xs) => toString xs.length
       | _ =>
          match objLookup fs "items" with
          | some (.jarr xs) => toString xs.length
          | _ => "unknown")
  | _ => "unknown"

/-- Embeds `jsonPrefix` (Chat.js 561–572). -/
def jsonBlockOf (st : ChatState) : String :=
  match st.jsonContext with
  | some j =>
      if channelJsonTruthy st then
        "[YouTube Channel JSON: \"" ++ j.name ++ "\" | "
          ++ videoCountStr st.channelJson ++ " videos]\n\n"
          ++ st.channelJsonSummary ++ "\n\n---\n\n"
      else if st.jsonError ≠ "" then
        "[YouTube Channel JSON: \"" ++ j.name ++ "\"]\n\n" ++ st.jsonError
          ++ "\n\n---\n\n"
      else ""
  | none => ""

/-- Embeds `userContent` (Chat.js 576–578): displayed in the bubble and persisted. -/
def userContentOf (st : ChatState) : String :=
  let text := jsTrim st.input
  if text ≠ "" then text
  else if !st.images.isEmpty then "(Image)"
  else if st.csvContext.isSome then "(CSV attached)"
  else "(JSON attached)"

/-- Embeds `promptForGemini` (Chat.js 579–587): sent to the model API, never persisted. -/
def promptOf (st : ChatState) : String :=
  let text := jsTrim st.input
  jsonBlockOf st ++ csvBlockOf st ++
    (if text ≠ "" then text
     else if !st.images.isEmpty then "What do you see in this image?"
     else if st.jsonContext.isSome then "Please analyze this YouTube channel JSON."
     else "Please analyze this CSV data.")

/-! ## Argument extraction for the JSON-tool branch (Chat.js 665–714) -/

def isAlphaUnder (c : Char) : Bool :=
  ('a' ≤ c && c ≤ 'z') || ('A' ≤ c && c ≤ 'Z') || c = '_'

/-- Exact-literal drop (subject already lower-cased where needed). -/
def dropLitsEq : List Char → List Char → Option (List Char)
  | [], cs => some cs
  | _ :: _, [] => none
  | p :: ps, d :: cs => if d = p then dropLitsEq ps cs else none

/-- Embeds `/CMD\s*:\s*([a-zA-Z_]+)/i` at the current position: the lower-cased captured
argument. -/
def cmdArgHere (cmd : List Char) (cs : List Char) : Option (List Char) :=
  match dropLitsCI cmd cs with
  | none => none
  | some r =>
      match r.dropWhile isJsSpace with
      | ':' :: r2 =>
          let arg := (r2.dropWhile isJsSpace).takeWhile isAlphaUnder
          if arg.isEmpty then none else some (lowerChars arg)
      | _ => none

/-- Embeds `/CMD\s*:\s*([a-zA-Z_]+)/i` anywhere in the subject (leftmost occurrence at which
the whole pattern matches). -/
def findCmdArg (cmd : List Char) : List Char → Option (List Char)
  | [] => cmdArgHere cmd []
  | d :: t =>
      match cmdArgHere cmd (d :: t) with
      | some a => some a
      | none => findCmdArg cmd t

/-- First alternative of a `\b(alt₁|alt₂|…)\b` group matching at this position
(subject lower-cased; alternatives tried in the regex's order). -/
def altHere (alts : List String) (prev : Option Char) (cs : List Char) : Option String :=
  if boundaryBefore prev then
    alts.find? (fun a =>
      match dropLitsEq a.toList cs with
      | some rest => boundaryAfter rest
      | none => false)
  else none

/-- Leftmost word-bounded match of one of `alts`, returning the matched alternative. -/
def firstWordAlt (alts : List String) : Option Char → List Char → Option String
  | prev, [] => altHere alts prev []
  | prev, d :: t =>
      match altHere alts prev (d :: t) with
      | some a => some a
      | none => firstWordAlt alts (some d) t

/-- Embeds `metricKey` (Chat.js 666–674). -/
def metricKeyOf (text : String) : String :=
  let raw : String :=
    match findCmdArg "plot_metric_vs_time".toList text.toList with
    | some a => a.asString
    | none =>
        match firstWordAlt ["views", "view", "likes", "like", "comments", "comment"]
            none (lowerChars text.toList) with
        | some w => w
        | none => "view_count"
  if containsSub "like".toList raw.toList then "like_count"
  else if containsSub "comment".toList raw.toList then "comment_count"
  else "view_count"

/-- Embeds `fieldKey` (Chat.js 687–697). -/
def fieldKeyOf (text : String) : String :=
  let raw : String :=
    match findCmdArg "compute_stats_json".toList text.toList with
    | some a => a.asString
    | none =>
        match firstWordAlt
            ["views", "view", "likes", "like", "comments", "comment", "duration"]
            none (lowerChars text.toList) with
        | some w => w
        | none => "view_count"
  if containsSub "like".toList raw.toList then "like_count"
  else if containsSub "comment".toList raw.toList then "comment_count"
  else if containsSub "duration".toList raw.toList then "duration"
  else "view_count"

/-- The capture of `/play_video\s*:\s*(.+)$/i` after the colon: `.+` may not contain a
newline and must reach the end of the subject; the greedy `\s*` yields back only as
much as `.+` needs. -/
def playCapture (r : List Char) : Option (List Char) :=
  let p := r.dropWhile isJsSpace
  if p.isEmpty then
    let suf := (r.reverse.takeWhile (fun c => !(c = '\n'))).reverse
    if suf.isEmpty then none else some suf
  else if p.any (fun c => c = '\n') then none else some p

/-- Leftmost successful match of `/play_video\s*:\s*(.+)$/i`. -/
def findPlayWhich : List Char → Option (List Char)
  | [] => none
  | d :: t =>
      (match dropLitsCI "play_video".toList (d :: t) with
       | some r =>
          (match r.dropWhile isJsSpace with
           | ':' :: r2 => playCapture r2
           | _ => none)
       | none => none).orElse (fun _ => findPlayWhich t)

/-- Embeds `which` (Chat.js 713–714). -/
def whichOf (text : String) : String :=
  match findPlayWhich text.toList with
  | some cap => (trimChars cap).asString
  | none => text

end ChatApp

namespace ChatApp

/-! ## The streaming loop with cooperative abort (Chat.js 818–866) -/

/-- One yielded chunk of `streamChat`. -/
inductive Chunk where
  | ctext (s : String)
  | cfull (ps : List SPart)
  | cground
deriving BEq

/-- The mutable accumulators of the streaming loop (`fullContent`,
`structuredParts`, `groundingData`). -/
structure StreamAcc where
  fullContent : String
  structuredParts : Option (List SPart)
  grounding : Bool
deriving BEq

def streamInit : StreamAcc := ⟨"", none, false⟩

/-- The body of one loop iteration (Chat.js 822–839). -/
def streamStep (acc : StreamAcc) : Chunk → StreamAcc
  | .ctext s => { acc with fullContent := acc.fullContent ++ s }
  | .cfull ps => { acc with structuredParts := some ps }
  | .cground => { acc with grounding := true }

/-- The loop with the abort check: `abortAt` is the number of iterations that run
before `abortRef.current` is observed `true` (the check `if (abortRef.current)
break` opens every iteration; `abortAt ≥ chunks.length` means no abort). -/
def streamLoop : List Chunk → ℕ → StreamAcc → StreamAcc
  | _, 0, acc => acc
  | [], _ + 1, acc => acc
  | c :: cs, k + 1, acc => streamLoop cs k (streamStep acc c)

/-- Abort-free processing of a chunk list. -/
def streamFold (chunks : List Chunk) : StreamAcc := chunks.foldl streamStep streamInit

/-- The assistant message as displayed after the streaming loop: structured parts
when a full code-execution response arrived, else the accumulated text. -/
def displayedOf (acc : StreamAcc) : Msg :=
  match acc.structuredParts with
  | some ps => ⟨"model", "", some ps⟩
  | none => ⟨"model", acc.fullContent, none⟩

/-- Embeds `savedContent` (Chat.js 856–858): the text parts of a structured response joined
by newlines, else the accumulated stream text. -/
def savedContentOf (acc : StreamAcc) : String :=
  match acc.structuredParts with
  | some ps =>
      String.intercalate "\n" (ps.filterMap (fun p =>
        match p with
        | .ptext s => some s
        | .pother => none))
  | none => acc.fullContent

/-- Concatenation of the text chunks of a stream. -/
def concatTexts : List Chunk → String
  | [] => ""
  | .ctext s :: t => s ++ concatTexts t
  | _ :: t => concatTexts t

/-! ## `handleSend` (Chat.js 474–874) -/

/-- One `saveMessage` call (the persisted role and text; binary attachments and chart
payloads are separate arguments of `saveMessage` and are not message text). -/
structure SaveCall where
  role : String
  content : String
deriving BEq

/-- The externals of one send: results of the model/service calls and the platform
functions.  `fmtFixed`, `fmtStd`, `fmtNum` are the display formatting of
`toFixed(2)`, `Math.sqrt(·).toFixed(2)` and template-literal number coercion
(IEEE float formatting, outside the embedded arithmetic); `parseDate`/`isoDate`
are the Date library.  The stream is the list of delivered chunks; `abortAt` is
the iteration at which the abort flag is first observed. -/
structure SendEnv where
  imageGenResult : Except String Unit
  toolsResult : Except String String
  chunks : List Chunk
  abortAt : ℕ
  caughtMsg : String
  fmtFixed : ℚ → String
  fmtStd : ℚ → String
  fmtNum : ℚ → String
  parseDate : JsonVal → Option Int
  isoDate : Int → String

/-- The observable outcome of one `handleSend` call: the message list afterwards and
the `saveMessage` calls in order. -/
structure SendOutcome where
  messages : List Msg
  saved : List SaveCall
deriving BEq

/-- Embeds the generate-image prompt (Chat.js 618): the anchored command form is
stripped from the text, the rest trimmed, defaulting to a fixed prompt. -/
def genImagePrompt (text : String) : String :=
  let stripped :=
    match genImageCmdSplit text.toList with
    | some tail => tail
    | none => text.toList
  let p := (trimChars stripped).asString
  if p = "" then "Generate an image." else p

/-- The guard of `handleSend` (Chat.js 476). -/
def sendGuardBlocks (st : ChatState) : Bool :=
  (jsTrim st.input = "" && st.images.isEmpty && st.csvContext.isNone
    && st.jsonContext.isNone) || st.streaming || !st.sessionActive

/-- Embeds `handleSend` (Chat.js 474–874): guard, user-message append and save, then the
four reply strategies.  Thrown tool errors are caught at this boundary
(`catch (err)`) and rendered as `Error: …` messages. -/
def handleSend (st : ChatState) (env : SendEnv) : SendOutcome :=
  if sendGuardBlocks st then ⟨st.messages, []⟩
  else
    let text := jsTrim st.input
    let userContent := userContentOf st
    let base := st.messages ++ [⟨"user", userContent, none⟩]
    let savedU : SaveCall := ⟨"user", userContent⟩
    if wantsGenerateImage text then
      match env.imageGenResult with
      | .ok _ =>
          let p := genImagePrompt text
          let content :=
            if p ≠ "" then "Generated image for: \"" ++ p ++ "\""
            else "Generated image."
          ⟨base ++ [⟨"model", content, none⟩], [savedU, ⟨"model", content⟩]⟩
      | .error m =>
          let errText := "Error: " ++ (if m = "" then "Image generation failed" else m)
          ⟨base ++ [⟨"model", errText, none⟩], [savedU, ⟨"model", errText⟩]⟩
    else if channelJsonTruthy st &&
        (wantsMetricPlot text || wantsStatsJson text || wantsPlayVideo text) then
      let cjv := st.channelJson.getD .jnull
      let result : Except Unit String :=
        if wantsMetricPlot text then
          match plotMetricVsTimeTool env.parseDate env.isoDate cjv (metricKeyOf text) with
          | .error e => .error e
          | .ok (.chart _ data) =>
              .ok ("Plotted " ++ metricKeyOf text ++ " vs time for "
                ++ toString data.length ++ " videos.")
          | .ok (.errMarker e) =>
              .ok (if e = "" then "Could not plot metric vs time." else e)
        else if wantsStatsJson text then
          match computeStatsJsonTool cjv (fieldKeyOf text) with
          | .error e => .error e
          | .ok (.stats s) =>
              .ok ("Stats for " ++ fieldKeyOf text ++ " (n=" ++ toString s.count
                ++ "): mean=" ++ env.fmtFixed s.mean ++ ", median="
                ++ env.fmtFixed s.median ++ ", std=" ++ env.fmtStd s.variance
                ++ ", min=" ++ env.fmtNum s.min ++ ", max=" ++ env.fmtNum s.max
                ++ ".")
          | .ok (.errMarker e) => .ok e
        else
          match playVideoTool cjv (whichOf text) with
          | .error e => .error e
          | .ok (.video _ title _ _) => .ok ("Opening video: " ++ title)
          | .ok (.errMarker e) => .ok e
      match result with
      | .ok contentText =>
          ⟨base ++ [⟨"model", contentText, none⟩], [savedU, ⟨"model", contentText⟩]⟩
      | .error _ =>
          let errText := "Error: " ++ (if env.caughtMsg = "" then "Tool failed" else env.caughtMsg)
          ⟨base ++ [⟨"model", errText, none⟩], [savedU, ⟨"model", errText⟩]⟩
    else if useToolsFlag text st.hasSessionCsvRows st.csvContext then
      match env.toolsResult with
      | .ok answer =>
          ⟨base ++ [⟨"model", answer, none⟩], [savedU, ⟨"model", answer⟩]⟩
      | .error m =>
          let errText := "Error: " ++ m
          ⟨base ++ [⟨"model", errText, none⟩], [savedU, ⟨"model", errText⟩]⟩
    else
      let acc := streamLoop env.chunks env.abortAt streamInit
      ⟨base ++ [displayedOf acc], [savedU, ⟨"model", savedContentOf acc⟩]⟩

end ChatApp

namespace ChatApp

/-! ## `YoutubeDownload.js` (`src/unnamed/part_001`): `clampInt`, `handleDownload` -/

/-- Embeds `Number.parseInt(s, 10)`: skip leading whitespace, optional sign, longest digit
prefix; `NaN` (here `none`) when no digit follows. -/
def jsParseInt10 (s : String) : Option ℤ :=
  let cs := s.toList.dropWhile isJsSpace
  let sgn : ℤ := match cs with
    | '-' :: _ => -1
    | _ => 1
  let cs1 := match cs with
    | '+' :: t => t
    | '-' :: t => t
    | t => t
  let ds := cs1.takeWhile isDigitB
  if ds.isEmpty then none else some (sgn * (digitsVal ds : ℤ))

/-- Embeds `clampInt` (YoutubeDownload.js 6–10).  The component's input value is a string
(`String(v || '')` is the identity on strings, with `''` parsing to `NaN`). -/
def clampInt (v : String) (min max : ℤ) : ℤ :=
  match jsParseInt10 v with
  | none => min
  | some n => Max.max min (Min.min max n)

/-- Occurrence of the literal `pat` followed by a `\b` (the next character is absent
or not a word character). -/
def subEndBoundaryHere (pat cs : List Char) : Bool :=
  match dropLitsEq pat cs with
  | some rest => boundaryAfter rest
  | none => false

def hasSubEndBoundary (pat : List Char) : List Char → Bool
  | [] => subEndBoundaryHere pat []
  | d :: t => subEndBoundaryHere pat (d :: t) || hasSubEndBoundary pat t

/-- Embeds `/youtube\.com\/@veritasium\b/i.test(url.trim())` (YoutubeDownload.js 83). -/
def isVeritasiumUrl (url : String) : Bool :=
  hasSubEndBoundary "youtube.com/@veritasium".toList (lowerChars (trimChars url.toList))

/-- The `channel` object of the download payload (YoutubeDownload.js 94–100;
`downloaded_at` is a timestamp, external). -/
structure DlChannel where
  handle : String
  url : String
  title : String
  maxVideosRequested : ℤ
deriving BEq

/-- The payload built by `handleDownload` (YoutubeDownload.js 93–102). -/
structure DlPayload where
  channel : DlChannel
  videos : List JsonVal

/-- Embeds the `raw?.channel?.title` lookup with its fixed fallback title (non-string truthy titles do not occur in
the sample data and are not modelled). -/
def dlTitle (raw : JsonVal) : String :=
  match optChainGet (optChainGet (some raw) "channel") "title" with
  | some (.jstr s) => if s = "" then "Veritasium" else s
  | _ => "Veritasium"

/-- Embeds `handleDownload` (YoutubeDownload.js 67–114) as a function of its inputs: the URL
field, the fetch result (`none` = the fetch failed or returned non-OK), and the
max-videos field.  Returns `none` when an error was set instead of a payload
(including the `raw.videos` `TypeError` on a `null` body). -/
def handleDownload (url : String) (fetched : Option JsonVal) (maxVideos : String) :
    Option DlPayload :=
  let targetMax := clampInt maxVideos 1 100
  if !(isVeritasiumUrl url) then none
  else
    match fetched with
    | none => none
    | some .jnull => none
    | some raw =>
        let videos :=
          match raw with
          | .jobj fs =>
              (match objLookup fs "videos" with
               | some (.jarr xs) => xs.take targetMax.toNat
               | _ => [])
          | _ => []
        some ⟨⟨"veritasium", "https://www.youtube.com/@veritasium", dlTitle raw,
          targetMax⟩, videos⟩

/-! ## Engagement ratio (spec-modelled) -/

/-- Modelled from the spec: the engagement column lives in
`src/services/csvTools.js` (`enrichWithEngagement`), which is not among the
provided sources.  A CSV row with the two source columns as parsed numeric values
(`none` = column missing or non-numeric), the derived `engagement` column, and the
remaining cells. -/
structure CsvRow where
  favoriteCount : Option ℚ
  viewCount : Option ℚ
  engagement : Option ℚ
  rest : List (String × String)
deriving BEq

/-- Modelled from the spec: "`engagementRatio(row)` = favoriteCount / viewCount when
both present and viewCount > 0; otherwise undefined" (spec §4.2, §8). -/
def engagementRatio (row : CsvRow) : Option ℚ :=
  match row.favoriteCount, row.viewCount with
  | some f, some v => if 0 < v then some (f / v) else none
  | _, _ => none

/-- Modelled from the spec: "rows without the inputs are left unmodified, not
dropped" — the enrichment writes the `engagement` column exactly when the ratio is
defined. -/
def enrichRow (row : CsvRow) : CsvRow :=
  match engagementRatio row with
  | some e => { row with engagement := some e }
  | none => row

/-- Modelled from the spec: the dataset-level enrichment maps `enrichRow` over all
rows (no row is dropped). -/
def enrichWithEngagement (rows : List CsvRow) : List CsvRow := rows.map enrichRow

end ChatApp

namespace ChatApp

/-! ## Helper lemmas -/

theorem mapExcept_ok_length {α β : Type} (f : α → Except Unit β) :
    ∀ {l : List α} {ys : List β}, mapExcept f l = .ok ys → ys.length = l.length := by
  intro l
  induction l with
  | nil => intro ys h; simp only [mapExcept] at h; cases h; rfl
  | cons x xs ih =>
      intro ys h
      simp only [mapExcept] at h
      cases hx : f x with
      | error e => rw [hx] at h; cases h
      | ok y =>
          rw [hx] at h
          cases hxs : mapExcept f xs with
          | error e => rw [hxs] at h; cases h
          | ok ys' =>
              rw [hxs] at h
              cases h
              simp [ih hxs]

theorem mem_of_mapExcept {α β : Type} (f : α → Except Unit β) :
    ∀ {l : List α} {ys : List β}, mapExcept f l = .ok ys →
      ∀ y ∈ ys, ∃ x ∈ l, f x = .ok y := by
  intro l
  induction l with
  | nil => intro ys h; simp only [mapExcept] at h; cases h; intro y hy; cases hy
  | cons x xs ih =>
      intro ys h
      simp only [mapExcept] at h
      cases hx : f x with
      | error e => rw [hx] at h; cases h
      | ok y0 =>
          rw [hx] at h
          cases hxs : mapExcept f xs with
          | error e => rw [hxs] at h; cases h
          | ok ys' =>
              rw [hxs] at h
              cases h
              intro y hy
              rcases List.mem_cons.mp hy with rfl | hy'
              · exact ⟨x, List.mem_cons_self _ _, hx⟩
              · rcases ih hxs y hy' with ⟨x', hx', hfx'⟩
                exact ⟨x', List.mem_cons_of_mem _ hx', hfx'⟩

/-- The extraction succeeded with a numeric value (used to state row counts). -/
def okSome {β : Type} : Except Unit (Option β) → Bool
  | .ok (some _) => true
  | _ => false

theorem filterMap_length_of_mapExcept {α β : Type} (f : α → Except Unit (Option β)) :
    ∀ {l : List α} {ys : List (Option β)}, mapExcept f l = .ok ys →
      (ys.filterMap id).length = l.countP (fun x => okSome (f x)) := by
  intro l
  induction l with
  | nil => intro ys h; simp only [mapExcept] at h; cases h; rfl
  | cons x xs ih =>
      intro ys h
      simp only [mapExcept] at h
      cases hx : f x with
      | error e => rw [hx] at h; cases h
      | ok y =>
          rw [hx] at h
          cases hxs : mapExcept f xs with
          | error e => rw [hxs] at h; cases h
          | ok ys' =>
              rw [hxs] at h
              cases h
              rw [List.countP_cons]
              cases y with
              | none => simp [List.filterMap_cons, ih hxs, hx, okSome]
              | some b => simp [List.filterMap_cons, ih hxs, hx, okSome]

theorem filterMap_nil_iff_of_mapExcept {α β : Type} (f : α → Except Unit (Option β)) :
    ∀ {l : List α} {ys : List (Option β)}, mapExcept f l = .ok ys →
      (ys.filterMap id = [] ↔ ∀ x ∈ l, f x = .ok none) := by
  intro l
  induction l with
  | nil =>
      intro ys h; simp only [mapExcept] at h; cases h; simp
  | cons x xs ih =>
      intro ys h
      simp only [mapExcept] at h
      cases hx : f x with
      | error e => rw [hx] at h; cases h
      | ok y =>
          rw [hx] at h
          cases hxs : mapExcept f xs with
          | error e => rw [hxs] at h; cases h
          | ok ys' =>
              rw [hxs] at h
              cases h
              cases y with
              | none =>
                  simp only [List.filterMap_cons, id]
                  rw [ih hxs]
                  constructor
                  · intro hall z hz
                    rcases List.mem_cons.mp hz with rfl | hz'
                    · exact hx
                    · exact hall z hz'
                  · intro hall z hz
                    exact hall z (List.mem_cons_of_mem _ hz)
              | some b =>
                  simp only [List.filterMap_cons, id]
                  constructor
                  · intro hcons; cases hcons
                  · intro hall
                    have := hall x (List.mem_cons_self _ _)
                    rw [hx] at this
                    cases this

theorem mapExcept_ok_of_all_ok {α β : Type} (f : α → Except Unit β) :
    ∀ {l : List α}, (∀ x ∈ l, ∃ y, f x = .ok y) → ∃ ys, mapExcept f l = .ok ys := by
  intro l
  induction l with
  | nil => intro _; exact ⟨[], rfl⟩
  | cons x xs ih =>
      intro hall
      rcases hall x (List.mem_cons_self _ _) with ⟨y, hy⟩
      rcases ih (fun z hz => hall z (List.mem_cons_of_mem _ hz)) with ⟨ys, hys⟩
      exact ⟨y :: ys, by simp only [mapExcept, hy, hys]⟩

theorem foldl_add_eq_sum (l : List ℚ) : ∀ a : ℚ, l.foldl (· + ·) a = a + l.sum := by
  induction l with
  | nil => intro a; simp
  | cons x xs ih => intro a; simp [List.foldl_cons, ih, List.sum_cons]; ring

theorem sorted_head_le_mem {l : List ℚ} (h : l.Sorted (· ≤ ·)) :
    ∀ x ∈ l, l.headD 0 ≤ x := by
  cases l with
  | nil => intro x hx; cases hx
  | cons a t =>
      intro x hx
      rcases List.mem_cons.mp hx with rfl | hx'
      · exact le_refl _
      · exact List.rel_of_sorted_cons h x hx'

theorem sorted_mem_le_getLast {l : List ℚ} (h : l.Sorted (· ≤ ·)) :
    ∀ x ∈ l, x ≤ l.getLastD 0 := by
  induction l with
  | nil => intro x hx; cases hx
  | cons a t ih =>
      intro x hx
      cases t with
      | nil =>
          rcases List.mem_cons.mp hx with rfl | hx'
          · simp [List.getLastD]
          · cases hx'
      | cons b t' =>
          have hgl : (a :: b :: t').getLastD 0 = (b :: t').getLastD 0 := by
            simp [List.getLastD]
          rw [hgl]
          rcases List.mem_cons.mp hx with rfl | hx'
          · have hb : x ≤ b := List.rel_of_sorted_cons h b (List.mem_cons_self _ _)
            exact le_trans hb (ih (List.Sorted.of_cons h) b (List.mem_cons_self _ _))
          · exact ih (List.Sorted.of_cons h) x hx'

theorem getD_mem_of_lt {α : Type} [Inhabited α] {l : List α} {i : ℕ} (h : i < l.length)
    (d : α) : l.getD i d ∈ l := by
  rw [List.getD_eq_getElem l d h]
  exact List.getElem_mem h

theorem streamLoop_eq_take :
    ∀ (cs : List Chunk) (k : ℕ) (acc : StreamAcc),
      streamLoop cs k acc = (cs.take k).foldl streamStep acc := by
  intro cs
  induction cs with
  | nil => intro k acc; cases k <;> simp [streamLoop]
  | cons c t ih =>
      intro k acc
      cases k with
      | zero => simp [streamLoop]
      | succ k' => simp [streamLoop, List.take_succ_cons, List.foldl_cons, ih]

theorem foldl_fullContent (cs : List Chunk) :
    ∀ acc : StreamAcc,
      (cs.foldl streamStep acc).fullContent = acc.fullContent ++ concatTexts cs := by
  induction cs with
  | nil => intro acc; simp [concatTexts]
  | cons c t ih =>
      intro acc
      cases c with
      | ctext s =>
          simp only [List.foldl_cons, streamStep, ih, concatTexts]
          rw [String.append_assoc]
      | cfull ps => simp [List.foldl_cons, streamStep, ih, concatTexts]
      | cground => simp [List.foldl_cons, streamStep, ih, concatTexts]

theorem foldl_structuredParts_none (cs : List Chunk) :
    ∀ acc : StreamAcc, (cs.foldl streamStep acc).structuredParts = none →
      acc.structuredParts = none := by
  induction cs with
  | nil => intro acc h; exact h
  | cons c t ih =>
      intro acc h
      have h' := ih _ h
      cases c with
      | ctext s => exact h'
      | cfull ps => simp [streamStep] at h'
      | cground => exact h'

end ChatApp

namespace ChatApp

/-! ## Concrete fixtures used by counterexamples and witnesses -/

/-- A fresh component state (nothing loaded, not streaming, session active) with the
given input text. -/
def emptyStateWith (input : String) : ChatState :=
  ⟨input, [], none, none, none, "", "", false, none, none, none, false, true, []⟩

/-- A trivial stand-in for the missing `csvTools.js` derivation pipeline. -/
def derivNull : String → CsvDerived := fun _ => ⟨[], "", ""⟩

/-- A trivial stand-in for `summarizeChannelJson`'s display output. -/
def summarizeNull : JsonVal → String := fun _ => ""

/-- Attaching a small two-column CSV file. -/
def csvAttach : AttachInput := ⟨some ("data.csv", "a,b\n1,2"), none, []⟩

/-- Attaching a JSON file whose text does not parse. -/
def badJsonAttach : AttachInput :=
  ⟨none, some ⟨"chan.json", "\x7b", none, "Unexpected end of JSON input"⟩, []⟩

/-- An environment with inert externals. -/
def envNull : SendEnv :=
  ⟨.ok (), .ok "", [], 0, "", fun _ => "", fun _ => "", fun _ => "",
   fun _ => none, fun _ => ""⟩

/-! ## C1 — routing of "average likes" with nothing loaded -/

/-- C1, counterexample: the claim says that for the text "average likes" with no CSV
rows and no channel JSON loaded, `handleSend` routes to the code-execution strategy
(`useCodeExecution` true).  In fact none of the `CODE_KEYWORDS` or
`PYTHON_ONLY_KEYWORDS` alternatives occurs in "average likes", so
`useCodeExecution` is `false` and the message is routed to the plain streaming
(search) path. -/
theorem C1_counterexample :
    useCodeExecution (jsTrim "average likes") false = false ∧
    strategyOf (emptyStateWith "average likes") = .stream false := by
  constructor
  · decide
  · decide

/-- C1, amended: for "average likes" with no CSV rows and no channel JSON loaded,
the stats keywords do match (`wantsStatsJson`), but the local stats tool branch
requires a loaded channel JSON, and neither `CODE_KEYWORDS` nor the Python-only
keywords match, so the message is routed to the plain streaming path with
`useCodeExecution = false` — neither the stats tool path nor code execution. -/
theorem C1_amended :
    wantsStatsJson "average likes" = true ∧
    codeKeywordsTest "average likes" = false ∧
    pythonOnlyTest "average likes" = false ∧
    strategyOf (emptyStateWith "average likes") = .stream false := by
  refine ⟨by decide, by decide, by decide, by decide⟩

/-! ## C2 — mutual exclusion of the CSV and JSON contexts after an attach -/

/-- C2, counterexample: attaching a CSV and then an invalid JSON file leaves both
`csvContext` and `jsonContext` non-null — the invalid-JSON branch of the attach
handlers (Chat.js 336–341 / 396–401) does not clear the CSV context. -/
theorem C2_counterexample :
    (handleAttach derivNull summarizeNull badJsonAttach
        (handleAttach derivNull summarizeNull csvAttach
          (emptyStateWith ""))).csvContext.isSome = true ∧
    (handleAttach derivNull summarizeNull badJsonAttach
        (handleAttach derivNull summarizeNull csvAttach
          (emptyStateWith ""))).jsonContext.isSome = true := by
  constructor
  · decide
  · decide

/-- C2, amended: attaching a CSV clears the JSON context and parsed channel JSON;
attaching a JSON file that parses clears the CSV context; but attaching a JSON file
that fails to parse sets the JSON context without clearing the CSV context.  The
invariant that the attach handlers do preserve is mutual exclusion of the CSV
context and the *parsed channel JSON* (`channelJson`). -/
theorem C2_holds (deriv : String → CsvDerived) (summarize : JsonVal → String)
    (inp : AttachInput) (st : ChatState)
    (h : ¬(st.csvContext.isSome = true ∧ st.channelJson.isSome = true)) :
    ¬((handleAttach deriv summarize inp st).csvContext.isSome = true ∧
      (handleAttach deriv summarize inp st).channelJson.isSome = true) ∧
    (∀ jf, inp.jsonFile = some jf → jf.parsed.isSome = true →
      (handleAttach deriv summarize inp st).csvContext = none) ∧
    (inp.jsonFile = none → ∀ n t, inp.csvFile = some (n, t) →
      (parseCSV t).isSome = true →
      (handleAttach deriv summarize inp st).jsonContext = none ∧
      (handleAttach deriv summarize inp st).channelJson = none) := by
  rcases inp with ⟨csvFile, jsonFile, imageData⟩
  refine ⟨?_, ?_, ?_⟩
  · -- preservation of ¬(csvContext ∧ channelJson)
    rcases jsonFile with _ | jf
    · rcases csvFile with _ | ⟨n, t⟩
      · simpa [handleAttach] using h
      · cases hp : parseCSV t with
        | none => simpa [handleAttach, hp] using h
        | some parsed => simp [handleAttach, hp]
    · rcases hjp : jf.parsed with _ | obj
      · rcases csvFile with _ | ⟨n, t⟩
        · simpa [handleAttach, hjp] using h
        · cases hp : parseCSV t with
          | none => simpa [handleAttach, hjp, hp] using h
          | some parsed => simp [handleAttach, hjp, hp]
      · rcases csvFile with _ | ⟨n, t⟩
        · simp [handleAttach, hjp]
        · cases hp : parseCSV t with
          | none => simp [handleAttach, hjp, hp]
          | some parsed => simp [handleAttach, hjp, hp]
  · -- a JSON file that parses clears the CSV context
    intro jf' hjf hsome
    cases hjf
    rcases hjp : jf'.parsed with _ | obj
    · rw [hjp] at hsome; cases hsome
    · rcases csvFile with _ | ⟨n, t⟩
      · simp [handleAttach, hjp]
      · cases hp : parseCSV t with
        | none => simp [handleAttach, hjp, hp]
        | some parsed => simp [handleAttach, hjp, hp]
  · -- a parsed CSV with no JSON file clears the JSON context and channel JSON
    intro hjn n t hcf hps
    cases hjn
    cases hcf
    rcases hp : parseCSV t with _ | parsed
    · rw [hp] at hps; cases hps
    · simp [handleAttach, hp]

/-- C2, witness: the amended invariant applied to a concrete attach (valid JSON after
a loaded CSV clears the CSV context). -/
theorem C2_witness :
    (handleAttach derivNull summarizeNull
      ⟨none, some ⟨"chan.json", "\x7b\x7d", some (.jobj []), ""⟩, []⟩
      (handleAttach derivNull summarizeNull csvAttach (emptyStateWith ""))).csvContext
      = none := by
  have h := C2_holds derivNull summarizeNull
    ⟨none, some ⟨"chan.json", "\x7b\x7d", some (.jobj []), ""⟩, []⟩
    (handleAttach derivNull summarizeNull csvAttach (emptyStateWith ""))
    (by decide)
  exact h.2.1 ⟨"chan.json", "\x7b\x7d", some (.jobj []), ""⟩ rfl rfl

end ChatApp

namespace ChatApp

/-! ## C6 — the send guard -/

/-- C6: invoking `handleSend` while a prior send is in flight (`streaming`), or while
the composed message is empty (no trimmed text, no images, no CSV context, no JSON
context), returns immediately: the message list is unchanged and no `saveMessage`
call (or any other service call) is made. -/
theorem C6_holds (st : ChatState) (env : SendEnv)
    (h : st.streaming = true ∨
      (jsTrim st.input = "" ∧ st.images = [] ∧ st.csvContext = none ∧
        st.jsonContext = none)) :
    (handleSend st env).messages = st.messages ∧ (handleSend st env).saved = [] := by
  have hg : sendGuardBlocks st = true := by
    unfold sendGuardBlocks
    rcases h with h | ⟨h1, h2, h3, h4⟩
    · simp [h]
    · simp [h1, h2, h3, h4]
  simp [handleSend, hg]

/-- C6, witness: a second send while streaming leaves the (empty) message list
unchanged and persists nothing. -/
theorem C6_witness :
    (handleSend { emptyStateWith "hi" with streaming := true } envNull).messages = [] ∧
    (handleSend { emptyStateWith "hi" with streaming := true } envNull).saved = [] :=
  C6_holds { emptyStateWith "hi" with streaming := true } envNull (Or.inl rfl)

/-! ## C8 — engagement ratio (spec-modelled) -/

/-- C8: the engagement ratio is defined (and equals favoriteCount / viewCount)
exactly when both source columns are present and viewCount > 0; rows lacking the
inputs are mapped to themselves by the enrichment, and no row is dropped.  The
spec's samples: favorite 10 with view 100 gives 0.1; view 0 gives undefined. -/
theorem C8_holds :
    (∀ row : CsvRow,
      ((engagementRatio row).isSome = true ↔
        row.favoriteCount.isSome = true ∧ ∃ v, row.viewCount = some v ∧ 0 < v) ∧
      (engagementRatio row = none → enrichRow row = row)) ∧
    (∀ rows : List CsvRow, (enrichWithEngagement rows).length = rows.length) ∧
    engagementRatio ⟨some 10, some 100, none, []⟩ = some (1 / 10) ∧
    engagementRatio ⟨none, some 0, none, []⟩ = none ∧
    engagementRatio ⟨some 5, some 0, none, []⟩ = none := by
  refine ⟨?_, ?_, ?_, ?_, ?_⟩
  · intro row
    constructor
    · rcases row with ⟨f, v, e, r⟩
      unfold engagementRatio
      cases f with
      | none => cases v <;> simp
      | some fv =>
          cases v with
          | none => simp
          | some vv =>
              by_cases h0 : 0 < vv <;> simp [h0]
    · intro h
      unfold enrichRow
      rw [h]
  · intro rows
    simp [enrichWithEngagement]
  · norm_num [engagementRatio]
  · rfl
  · simp [engagementRatio]

/-- C8, witness: the enrichment leaves the spec's view-0 sample row unmodified. -/
theorem C8_witness : enrichRow ⟨none, some 0, none, []⟩ = ⟨none, some 0, none, []⟩ :=
  (C8_holds.1 ⟨none, some 0, none, []⟩).2 rfl

/-! ## C10 — `clampInt` bounds and the download payload -/

/-- C10: for every input string and `min ≤ max`, `clampInt` returns an integer in
`[min, max]`, with non-numeric input mapping to `min`; consequently every payload
`handleDownload` produces has at most 100 videos and a `max_videos_requested`
between 1 and 100. -/
theorem C10_holds (v : String) :
    (∀ lo hi : ℤ, lo ≤ hi →
      lo ≤ clampInt v lo hi ∧ clampInt v lo hi ≤ hi ∧
      (jsParseInt10 v = none → clampInt v lo hi = lo)) ∧
    (∀ url fetched payload, handleDownload url fetched v = some payload →
      payload.videos.length ≤ 100 ∧
      1 ≤ payload.channel.maxVideosRequested ∧
      payload.channel.maxVideosRequested ≤ 100) := by
  have hb : ∀ lo hi : ℤ, lo ≤ hi → lo ≤ clampInt v lo hi ∧ clampInt v lo hi ≤ hi := by
    intro lo hi hlh
    unfold clampInt
    cases jsParseInt10 v with
    | none => exact ⟨le_refl _, hlh⟩
    | some n =>
        exact ⟨le_max_left _ _, max_le hlh (min_le_left _ _)⟩
  constructor
  · intro lo hi hlh
    refine ⟨(hb lo hi hlh).1, (hb lo hi hlh).2, ?_⟩
    intro hn
    unfold clampInt
    rw [hn]
  · intro url fetched payload hp
    have h1 : 1 ≤ clampInt v 1 100 := (hb 1 100 (by norm_num)).1
    have h2 : clampInt v 1 100 ≤ 100 := (hb 1 100 (by norm_num)).2
    unfold handleDownload at hp
    cases hv : isVeritasiumUrl url with
    | false => rw [hv] at hp; simp at hp
    | true =>
        rw [hv] at hp
        simp only [Bool.not_true, Bool.false_eq_true, if_false] at hp
        cases fetched with
        | none => cases hp
        | some raw =>
            have hlen : ∀ xs : List JsonVal,
                (xs.take (clampInt v 1 100).toNat).length ≤ 100 := by
              intro xs
              calc (xs.take (clampInt v 1 100).toNat).length
                  ≤ (clampInt v 1 100).toNat := by
                    rw [List.length_take]; exact min_le_left _ _
                _ ≤ 100 := Int.toNat_le.mpr h2
            cases raw with
            | jnull => cases hp
            | jbool b => cases hp; exact ⟨by simp, h1, h2⟩
            | jnum q => cases hp; exact ⟨by simp, h1, h2⟩
            | jstr s => cases hp; exact ⟨by simp, h1, h2⟩
            | jarr xs => cases hp; exact ⟨by simp, h1, h2⟩
            | jobj fs =>
                cases hp
                refine ⟨?_, h1, h2⟩
                cases hlk : objLookup fs "videos" with
                | none => simp [hlk]
                | some w =>
                    cases w with
                    | jarr xs => simp only [hlk]; exact hlen xs
                    | jnull => simp [hlk]
                    | jbool b => simp [hlk]
                    | jnum q => simp [hlk]
                    | jstr s => simp [hlk]
                    | jobj fs2 => simp [hlk]

/-- C10, witness: `"abc"` clamps to the minimum, and a concrete download of a
two-video sample with the field `"250"` yields a payload within the bounds. -/
theorem C10_witness :
    ((1:ℤ) ≤ clampInt "abc" 1 100 ∧ clampInt "abc" 1 100 ≤ 100 ∧
      clampInt "abc" 1 100 = 1) ∧
    ((DlPayload.mk ⟨"veritasium", "https://www.youtube.com/@veritasium",
        "Veritasium", 100⟩ [.jobj [], .jobj []]).videos.length ≤ 100 ∧
      1 ≤ (DlPayload.mk ⟨"veritasium", "https://www.youtube.com/@veritasium",
        "Veritasium", 100⟩ [.jobj [], .jobj []]).channel.maxVideosRequested ∧
      (DlPayload.mk ⟨"veritasium", "https://www.youtube.com/@veritasium",
        "Veritasium", 100⟩ [.jobj [], .jobj []]).channel.maxVideosRequested ≤ 100) := by
  constructor
  · have h := (C10_holds "abc").1 1 100 (by norm_num)
    exact ⟨h.1, h.2.1, h.2.2 (by decide)⟩
  · exact (C10_holds "250").2 "https://www.youtube.com/@veritasium"
      (some (.jobj [("videos", .jarr [.jobj [], .jobj []])]))
      _ rfl

end ChatApp

namespace ChatApp

/-! ## C7 — cooperative abort of the streaming path -/

theorem strategyOf_stream_flags {st : ChatState} {b : Bool}
    (h : strategyOf st = .stream b) :
    wantsGenerateImage (jsTrim st.input) = false ∧
    (channelJsonTruthy st && (wantsMetricPlot (jsTrim st.input)
      || wantsStatsJson (jsTrim st.input) || wantsPlayVideo (jsTrim st.input))) = false ∧
    useToolsFlag (jsTrim st.input) st.hasSessionCsvRows st.csvContext = false := by
  unfold strategyOf at h
  by_cases h1 : wantsGenerateImage (jsTrim st.input) = true
  · rw [if_pos h1] at h; cases h
  · rw [if_neg h1] at h
    by_cases h2 : (channelJsonTruthy st && (wantsMetricPlot (jsTrim st.input)
        || wantsStatsJson (jsTrim st.input) || wantsPlayVideo (jsTrim st.input))) = true
    · rw [if_pos h2] at h; cases h
    · rw [if_neg h2] at h
      by_cases h3 : useToolsFlag (jsTrim st.input) st.hasSessionCsvRows st.csvContext = true
      · rw [if_pos h3] at h; cases h
      · exact ⟨Bool.not_eq_true _ ▸ (by simpa using h1),
          Bool.not_eq_true _ ▸ (by simpa using h2),
          Bool.not_eq_true _ ▸ (by simpa using h3)⟩

/-- C7: on the streaming path, once the abort flag is observed (before iteration
`abortAt`), no further chunk is processed: the loop's result equals abort-free
processing of just the first `abortAt` chunks, the content accumulated from them
remains the displayed assistant message, and exactly that content (`savedContent`)
is passed to the final `saveMessage` call — the partial result is persisted as-is,
not rolled back.  When no structured response arrived before the abort, the
persisted text is precisely the concatenation of the pre-abort text chunks. -/
theorem C7_holds (st : ChatState) (env : SendEnv) (b : Bool)
    (hg : sendGuardBlocks st = false)
    (hs : strategyOf st = .stream b) :
    (handleSend st env).messages =
      st.messages ++ [⟨"user", userContentOf st, none⟩,
        displayedOf (streamLoop env.chunks env.abortAt streamInit)] ∧
    (handleSend st env).saved =
      [⟨"user", userContentOf st⟩,
       ⟨"model", savedContentOf (streamLoop env.chunks env.abortAt streamInit)⟩] ∧
    streamLoop env.chunks env.abortAt streamInit =
      streamFold (env.chunks.take env.abortAt) ∧
    ((streamLoop env.chunks env.abortAt streamInit).structuredParts = none →
      savedContentOf (streamLoop env.chunks env.abortAt streamInit) =
        concatTexts (env.chunks.take env.abortAt)) := by
  obtain ⟨h1, h2, h3⟩ := strategyOf_stream_flags hs
  have hrun : streamLoop env.chunks env.abortAt streamInit =
      streamFold (env.chunks.take env.abortAt) := by
    rw [streamLoop_eq_take]; rfl
  refine ⟨?_, ?_, hrun, ?_⟩
  · simp [handleSend, hg, h1, h2, h3]
  · simp [handleSend, hg, h1, h2, h3]
  · intro hnone
    rw [hrun] at hnone ⊢
    unfold savedContentOf
    rw [hnone]
    unfold streamFold
    rw [foldl_fullContent]
    simp [streamInit]

/-- C7, witness: a stream of two text chunks aborted after the first iteration
persists exactly the first chunk. -/
theorem C7_witness :
    (handleSend (emptyStateWith "hello")
      { envNull with chunks := [.ctext "Hel", .ctext "lo!"], abortAt := 1 }).saved =
      [⟨"user", "hello"⟩, ⟨"model", "Hel"⟩] := by
  have h := C7_holds (emptyStateWith "hello")
    { envNull with chunks := [.ctext "Hel", .ctext "lo!"], abortAt := 1 } false
    (by decide) (by decide)
  rw [h.2.1]
  rfl

/-! ## C3 — the base64 dataset -/

/-- The state after attaching the small CSV of `csvAttach`. -/
def csvLoadedState : ChatState :=
  handleAttach derivNull summarizeNull csvAttach (emptyStateWith "")

/-- The same state with the pending CSV context's base64 replaced. -/
def setBase64 (st : ChatState) (b64 : String) : ChatState :=
  { st with csvContext := st.csvContext.map (fun c => { c with base64 := b64 }) }

/-- C3, counterexample: the claim says the base64 encoding of the CSV dataset is
constructed only when the code-execution strategy is selected for a message.  In
fact `parseCSV` builds the base64 eagerly during the attach operation: after
attaching `"a,b\n1,2"` the pending CSV context already carries its base64, while
the next message ("hello") is routed to the plain streaming strategy, not code
execution. -/
theorem C3_counterexample :
    (csvLoadedState.csvContext.map CsvCtx.base64) = some "YSxiCjEsMg==" ∧
    strategyOf { csvLoadedState with input := "hello" } = .stream false := by
  constructor
  · decide
  · decide

/-- C3, amended: the base64 dataset is constructed at CSV-attach time (in
`parseCSV`), not at strategy-selection time; it is included in the Gemini prompt
exactly by the `needsBase64` branch (captured CSV and Python-only keywords), and
the persisted texts (every `saveMessage` payload, user and model) are independent
of the base64 field — changing it changes no saved call and, outside the
`needsBase64` branch, not even the prompt. -/
theorem C3_holds (st : ChatState) (env : SendEnv) (b64 : String) :
    (handleSend (setBase64 st b64) env = handleSend st env) ∧
    (needsBase64 st.csvContext (jsTrim st.input) = false →
      promptOf (setBase64 st b64) = promptOf st) ∧
    (∀ c, st.csvContext = some c → needsBase64 st.csvContext (jsTrim st.input) = true →
      ∃ x y, promptOf st = x ++ (c.base64 ++ y)) := by
  unfold setBase64
  rcases st with ⟨inp, imgs, csvC, jsonC, chJ, chS, jErr, hRows, sHdr, sSum, sSlim,
    strm, act, msgs⟩
  cases csvC with
  | none =>
      refine ⟨rfl, fun _ => rfl, ?_⟩
      intro c hc
      cases hc
  | some c =>
      refine ⟨?_, ?_, ?_⟩
      · simp [handleSend, sendGuardBlocks, userContentOf, useToolsFlag,
          channelJsonTruthy, needsBase64]
      · intro hn
        simp only [needsBase64, Option.isSome_some, Bool.true_and] at hn
        simp [promptOf, csvBlockOf, jsonBlockOf, needsBase64, csvHeaderLine,
          sessionSummaryOf, slimCsvBlockOf, channelJsonTruthy, hn]
      · intro c' hc' hb
        have hcc : c' = c := by
          simpa using hc'.symm
        subst hcc
        simp only [needsBase64, Option.isSome_some, Bool.true_and] at hb
        refine ⟨jsonBlockOf ⟨inp, imgs, some c', jsonC, chJ, chS, jErr, hRows, sHdr,
            sSum, sSlim, strm, act, msgs⟩ ++
          (csvHeaderLine c' ++ ("\n\n" ++ (sSum.getD "" ++
            (slimCsvBlockOf ⟨inp, imgs, some c', jsonC, chJ, chS, jErr, hRows, sHdr,
              sSum, sSlim, strm, act, msgs⟩ ++
              "\n\nIMPORTANT — to load the full data in Python use this exact pattern:\n```python\nimport pandas as pd, io, base64\ndf = pd.read_csv(io.BytesIO(base64.b64decode(\"")))),
          "\")))\n```\n\n---\n\n" ++
            (if jsTrim inp ≠ "" then jsTrim inp
             else if !imgs.isEmpty then "What do you see in this image?"
             else if jsonC.isSome then "Please analyze this YouTube channel JSON."
             else "Please analyze this CSV data."), ?_⟩
        simp only [promptOf, csvBlockOf, needsBase64, Option.isSome_some,
          Bool.true_and, hb, if_true, sessionSummaryOf, String.append_assoc]

end ChatApp

namespace ChatApp

/-- C3, witness: with the small CSV attached, a plain message's prompt is unchanged
under replacement of the base64 field, and a Python-only message's prompt contains
the attached dataset's base64 (`"YSxiCjEsMg=="` = base64 of `"a,b\n1,2"`). -/
theorem C3_witness :
    promptOf (setBase64 { csvLoadedState with input := "hello" } "XYZ") =
      promptOf { csvLoadedState with input := "hello" } ∧
    ∃ x y, promptOf { csvLoadedState with input := "plot a histogram" } =
      x ++ ("YSxiCjEsMg==" ++ y) := by
  constructor
  · exact (C3_holds { csvLoadedState with input := "hello" } envNull "XYZ").2.1
      (by decide)
  · have hc : ({ csvLoadedState with input := "plot a histogram" } : ChatState).csvContext =
        some ⟨"data.csv", ["a", "b"], 1, "a,b\n1,2", "YSxiCjEsMg==", false⟩ := rfl
    rcases (C3_holds { csvLoadedState with input := "plot a histogram" } envNull
        "XYZ").2.2 _ hc (by decide) with ⟨x, y, hxy⟩
    exact ⟨x, y, hxy⟩

end ChatApp

namespace ChatApp

/-! ## C4 — bounds of the column stats -/

/-- C4: whenever `computeStatsJsonTool` returns the stats record (no error), the
record satisfies `min ≤ median ≤ max` and `min ≤ mean ≤ max`, and `count` equals
the number of videos whose value in the requested field is numeric. -/
theorem C4_holds (cj : JsonVal) (field : String) (s : JsonStats)
    (h : computeStatsJsonTool cj field = .ok (.stats s)) :
    s.min ≤ s.median ∧ s.median ≤ s.max ∧ s.min ≤ s.mean ∧ s.mean ≤ s.max ∧
    s.count = (getVideos cj).countP (fun v =>
      okSome (extractNum v (if field = "" then "view_count" else field))) := by
  simp only [computeStatsJsonTool] at h
  by_cases hemp : (getVideos cj).isEmpty = true
  · rw [if_pos hemp] at h; simp at h
  · rw [if_neg hemp] at h
    cases hm : mapExcept
        (fun v => extractNum v (if field = "" then "view_count" else field))
        (getVideos cj) with
    | error e =>
        rw [hm] at h
        exact absurd h (by simp)
    | ok vals =>
        simp only [hm] at h
        by_cases hvemp : (vals.filterMap id).isEmpty = true
        · rw [if_pos hvemp] at h; simp at h
        · rw [if_neg hvemp] at h
          simp only [Except.ok.injEq, StatsOut.stats.injEq] at h
          subst h
          have hvne : vals.filterMap id ≠ [] := by
            simpa [List.isEmpty_iff] using hvemp
          have hpos : 0 < (vals.filterMap id).length := List.length_pos.mpr hvne
          have hperm : List.Perm ((vals.filterMap id).insertionSort (· ≤ ·))
              (vals.filterMap id) :=
            List.perm_insertionSort _ _
          have hsorted : ((vals.filterMap id).insertionSort (· ≤ ·)).Sorted (· ≤ ·) :=
            List.sorted_insertionSort _ _
          have hlen : ((vals.filterMap id).insertionSort (· ≤ ·)).length =
              (vals.filterMap id).length := hperm.length_eq
          have hspos : 0 < ((vals.filterMap id).insertionSort (· ≤ ·)).length := by
            rw [hlen]; exact hpos
          -- any indexed element lies between headD and getLastD
          have hlow : ∀ i, i < ((vals.filterMap id).insertionSort (· ≤ ·)).length →
              ((vals.filterMap id).insertionSort (· ≤ ·)).headD 0 ≤
                ((vals.filterMap id).insertionSort (· ≤ ·)).getD i 0 := by
            intro i hi
            exact sorted_head_le_mem hsorted _ (getD_mem_of_lt hi 0)
          have hhigh : ∀ i, i < ((vals.filterMap id).insertionSort (· ≤ ·)).length →
              ((vals.filterMap id).insertionSort (· ≤ ·)).getD i 0 ≤
                ((vals.filterMap id).insertionSort (· ≤ ·)).getLastD 0 := by
            intro i hi
            exact sorted_mem_le_getLast hsorted _ (getD_mem_of_lt hi 0)
          -- bounds for every member of `values`
          have hmemlow : ∀ x ∈ vals.filterMap id,
              ((vals.filterMap id).insertionSort (· ≤ ·)).headD 0 ≤ x := by
            intro x hx
            exact sorted_head_le_mem hsorted x (hperm.mem_iff.mpr hx)
          have hmemhigh : ∀ x ∈ vals.filterMap id,
              x ≤ ((vals.filterMap id).insertionSort (· ≤ ·)).getLastD 0 := by
            intro x hx
            exact sorted_mem_le_getLast hsorted x (hperm.mem_iff.mpr hx)
          have hsum : (vals.filterMap id).foldl (· + ·) 0 = (vals.filterMap id).sum := by
            rw [foldl_add_eq_sum]; ring
          have hcq : (0 : ℚ) < ((vals.filterMap id).length : ℚ) := by
            exact_mod_cast hpos
          refine ⟨?_, ?_, ?_, ?_, ?_⟩
          · -- min ≤ median
            by_cases hpar : (vals.filterMap id).length % 2 = 0
            · simp only [hpar, if_true]
              have hi2 : (vals.filterMap id).length / 2 <
                  ((vals.filterMap id).insertionSort (· ≤ ·)).length := by
                rw [hlen]; exact Nat.div_lt_self hpos (by norm_num)
              have hi1 : (vals.filterMap id).length / 2 - 1 <
                  ((vals.filterMap id).insertionSort (· ≤ ·)).length :=
                lt_of_le_of_lt (Nat.sub_le _ _) hi2
              have b1 := hlow _ hi1
              have b2 := hlow _ hi2
              linarith
            · simp only [hpar, if_false]
              have hi : ((vals.filterMap id).length - 1) / 2 <
                  ((vals.filterMap id).insertionSort (· ≤ ·)).length := by
                rw [hlen]
                exact lt_of_le_of_lt (Nat.div_le_self _ _)
                  (Nat.sub_lt hpos (by norm_num))
              exact hlow _ hi
          · -- median ≤ max
            by_cases hpar : (vals.filterMap id).length % 2 = 0
            · simp only [hpar, if_true]
              have hi2 : (vals.filterMap id).length / 2 <
                  ((vals.filterMap id).insertionSort (· ≤ ·)).length := by
                rw [hlen]; exact Nat.div_lt_self hpos (by norm_num)
              have hi1 : (vals.filterMap id).length / 2 - 1 <
                  ((vals.filterMap id).insertionSort (· ≤ ·)).length :=
                lt_of_le_of_lt (Nat.sub_le _ _) hi2
              have b1 := hhigh _ hi1
              have b2 := hhigh _ hi2
              linarith
            · simp only [hpar, if_false]
              have hi : ((vals.filterMap id).length - 1) / 2 <
                  ((vals.filterMap id).insertionSort (· ≤ ·)).length := by
                rw [hlen]
                exact lt_of_le_of_lt (Nat.div_le_self _ _)
                  (Nat.sub_lt hpos (by norm_num))
              exact hhigh _ hi
          · -- min ≤ mean
            rw [le_div_iff hcq, hsum]
            have := List.card_nsmul_le_sum (vals.filterMap id) _ hmemlow
            rw [nsmul_eq_mul] at this
            linarith [this]
          · -- mean ≤ max
            rw [div_le_iff hcq, hsum]
            have := List.sum_le_card_nsmul (vals.filterMap id) _ hmemhigh
            rw [nsmul_eq_mul] at this
            linarith [this]
          · -- count
            exact filterMap_length_of_mapExcept _ hm

/-- A small channel JSON: two videos with views 3 and 7, one without the field. -/
def statsCj : JsonVal :=
  .jobj [("videos", .jarr [.jobj [("view_count", .jnum 3)],
    .jobj [("view_count", .jnum 7)], .jobj [("title", .jstr "no views")]])]

/-- C4, witness: stats of `statsCj`'s `view_count` (values 3 and 7): count 2,
mean 5, median 5, variance 4, min 3, max 7 — within the claimed bounds. -/
theorem C4_witness :
    computeStatsJsonTool statsCj "view_count" =
      .ok (.stats ⟨"view_count", 2, 5, 5, 4, 3, 7⟩) ∧
    ((3:ℚ) ≤ 5 ∧ (5:ℚ) ≤ 7 ∧ (3:ℚ) ≤ 5 ∧ (5:ℚ) ≤ 7 ∧
      2 = (getVideos statsCj).countP (fun v =>
        okSome (extractNum v (if "view_count" = "" then "view_count" else "view_count")))) := by
  have hmap : mapExcept
      (fun v => extractNum v (if ("view_count" : String) = "" then "view_count"
        else "view_count"))
      (getVideos statsCj) = .ok [some 3, some 7, none] := rfl
  have h : computeStatsJsonTool statsCj "view_count" =
      .ok (.stats ⟨"view_count", 2, 5, 5, 4, 3, 7⟩) := by
    simp only [computeStatsJsonTool]
    rw [hmap]
    norm_num [statsCj, getVideos, jsFalsy, objLookup, List.filterMap,
      List.insertionSort, List.orderedInsert, List.foldl]
  refine ⟨h, ?_⟩
  have hc := C4_holds statsCj "view_count" ⟨"view_count", 2, 5, 5, 4, 3, 7⟩ h
  exact hc

end ChatApp

namespace ChatApp

/-! ## Non-null videos never make the tools throw -/

theorem jsGet_ok {v : JsonVal} (hv : v ≠ .jnull) (k : String) :
    ∃ o, jsGet v k = .ok o := by
  cases v with
  | jnull => exact absurd rfl hv
  | jbool b => exact ⟨none, rfl⟩
  | jnum q => exact ⟨none, rfl⟩
  | jstr s => exact ⟨none, rfl⟩
  | jarr xs => exact ⟨none, rfl⟩
  | jobj fs => exact ⟨objLookup fs k, rfl⟩

theorem rawField_ok {v : JsonVal} (hv : v ≠ .jnull) (key : String) :
    ∃ o, rawField v key = .ok o := by
  obtain ⟨a, ha⟩ := jsGet_ok hv key
  obtain ⟨b, hb⟩ := jsGet_ok hv (key ++ "_count")
  obtain ⟨st, hst⟩ := jsGet_ok hv "statistics"
  obtain ⟨vc, hvc⟩ := jsGet_ok hv "view_count"
  simp only [rawField, ha, hb, hst, hvc]
  rcases nullish a with _ | x
  · rcases nullish b with _ | x
    · rcases nullish (optChainGet st key) with _ | x
      · rcases nullish (optChainGet st (key ++ "_count")) with _ | x
        · by_cases hk : key = "view_count"
          · rw [if_pos hk]
            exact ⟨_, rfl⟩
          · rw [if_neg hk]
            exact ⟨_, rfl⟩
        · exact ⟨_, rfl⟩
      · exact ⟨_, rfl⟩
    · exact ⟨_, rfl⟩
  · exact ⟨_, rfl⟩

theorem extractNum_ok {v : JsonVal} (hv : v ≠ .jnull) (key : String) :
    ∃ o, extractNum v key = .ok o := by
  obtain ⟨o, ho⟩ := rawField_ok hv key
  exact ⟨jsNumber o, by simp [extractNum, ho]⟩

theorem dateRaw_ok {v : JsonVal} (hv : v ≠ .jnull) : ∃ o, dateRaw v = .ok o := by
  obtain ⟨a, ha⟩ := jsGet_ok hv "published_at"
  obtain ⟨b, hb⟩ := jsGet_ok hv "publishedAt"
  obtain ⟨sn, hsn⟩ := jsGet_ok hv "snippet"
  refine ⟨jsOr a (jsOr b (optChainGet sn "publishedAt")), ?_⟩
  simp [dateRaw, ha, hb, hsn]

theorem titleOf_ok {v : JsonVal} (hv : v ≠ .jnull) : ∃ o, titleOf v = .ok o := by
  obtain ⟨a, ha⟩ := jsGet_ok hv "title"
  obtain ⟨sn, hsn⟩ := jsGet_ok hv "snippet"
  simp only [titleOf, ha, hsn]
  exact ⟨_, rfl⟩

theorem toPoint_ok {v : JsonVal} (hv : v ≠ .jnull) (pd : JsonVal → Option Int)
    (iso : Int → String) (key : String) : ∃ o, toPoint pd iso key v = .ok o := by
  obtain ⟨rd, hrd⟩ := dateRaw_ok hv
  obtain ⟨t, ht⟩ := titleOf_ok hv
  obtain ⟨n, hn⟩ := extractNum_ok hv key
  rcases rd with _ | rv
  · refine ⟨none, ?_⟩
    simp [toPoint, hrd, ht, hn, jsTruthy]
  · by_cases htr : jsTruthy (some rv) = true
    · simp only [toPoint, hrd, ht, hn, htr, if_true]
      rcases hpd : pd rv with _ | tv <;> rcases n with _ | q <;> exact ⟨_, rfl⟩
    · simp only [toPoint, hrd, ht, hn]
      rw [if_neg htr]
      exact ⟨none, rfl⟩

/-! ## C5 — error marker vs throw in `computeStatsJsonTool` -/

/-- A channel JSON whose `videos` array contains a `null` entry. -/
def nullVidCj : JsonVal := .jobj [("videos", .jarr [.jnull])]

/-- C5, counterexample: the claim says the column-stats computation returns an
error-marker object rather than throwing exactly when no videos are loaded or zero
numeric values remain.  For a channel JSON whose videos array is `[null]` there are videos and zero numeric
values remain, yet the property access `v[key]` on the `null` entry throws a
`TypeError` (here `Except.error`) instead of returning the marker. -/
theorem C5_counterexample :
    computeStatsJsonTool nullVidCj "view_count" = .error () := rfl

/-- C5, amended: provided no entry of the videos array is `null` (a null entry makes
the field extraction throw, caught only at the orchestrator), the computation never
throws, returns the error-marker object exactly when no videos are loaded or zero
numeric values remain for the requested field, and returns the stats record
otherwise. -/
theorem C5_holds (cj : JsonVal) (field : String)
    (hnn : ∀ v ∈ getVideos cj, v ≠ .jnull) :
    ∃ r, computeStatsJsonTool cj field = .ok r ∧
      ((∃ msg, r = .errMarker msg) ↔
        (getVideos cj = [] ∨ ∀ v ∈ getVideos cj,
          extractNum v (if field = "" then "view_count" else field) = .ok none)) ∧
      (¬(getVideos cj = [] ∨ ∀ v ∈ getVideos cj,
          extractNum v (if field = "" then "view_count" else field) = .ok none) →
        ∃ s, r = .stats s) := by
  have hok : ∀ v ∈ getVideos cj,
      ∃ o, extractNum v (if field = "" then "view_count" else field) = .ok o :=
    fun v hv => extractNum_ok (hnn v hv) _
  obtain ⟨vals, hvals⟩ := mapExcept_ok_of_all_ok _ hok
  by_cases hemp : getVideos cj = []
  · refine ⟨.errMarker
      "No videos loaded. Please attach a YouTube channel JSON file first.", ?_, ?_, ?_⟩
    · simp [computeStatsJsonTool, hemp]
    · exact ⟨fun _ => Or.inl hemp, fun _ => ⟨_, rfl⟩⟩
    · intro hne
      exact absurd (Or.inl hemp) hne
  · have hne : ¬(getVideos cj).isEmpty = true := by
      simpa [List.isEmpty_iff] using hemp
    by_cases hall : vals.filterMap id = []
    · have hcond : ∀ v ∈ getVideos cj,
          extractNum v (if field = "" then "view_count" else field) = .ok none :=
        (filterMap_nil_iff_of_mapExcept _ hvals).mp hall
      refine ⟨.errMarker ("No numeric values found for field \"" ++ field ++ "\"."),
        ?_, ?_, ?_⟩
      · simp only [computeStatsJsonTool]
        rw [if_neg hne]
        simp only [hvals]
        rw [if_pos (by simpa [List.isEmpty_iff] using hall)]
      · exact ⟨fun _ => Or.inr hcond, fun _ => ⟨_, rfl⟩⟩
      · intro hne'
        exact absurd (Or.inr hcond) hne'
    · obtain ⟨s, hs⟩ : ∃ s, computeStatsJsonTool cj field = .ok (.stats s) := by
        simp only [computeStatsJsonTool]
        rw [if_neg hne]
        simp only [hvals]
        rw [if_neg (by simpa [List.isEmpty_iff] using hall)]
        exact ⟨_, rfl⟩
      refine ⟨.stats s, hs, ?_, fun _ => ⟨s, rfl⟩⟩
      constructor
      · rintro ⟨msg, hmsg⟩
        cases hmsg
      · rintro (h | h)
        · exact absurd h hemp
        · exact absurd ((filterMap_nil_iff_of_mapExcept _ hvals).mpr h) hall

/-- C5, witness: the amended biconditional applied to the concrete non-null channel
JSON `statsCj`. -/
theorem C5_witness :
    (∀ v ∈ getVideos statsCj, v ≠ JsonVal.jnull) ∧
    ∃ r, computeStatsJsonTool statsCj "view_count" = .ok r := by
  have hnn : ∀ v ∈ getVideos statsCj, v ≠ JsonVal.jnull := by
    intro v hv
    have hg : getVideos statsCj = [.jobj [("view_count", .jnum 3)],
        .jobj [("view_count", .jnum 7)], .jobj [("title", .jstr "no views")]] := rfl
    rw [hg] at hv
    rcases hv with _ | ⟨_, hv⟩
    · simp
    · rcases hv with _ | ⟨_, hv⟩
      · simp
      · rcases hv with _ | ⟨_, hv⟩
        · simp
        · cases hv
  obtain ⟨r, hr, _, _⟩ := C5_holds statsCj "view_count" hnn
  exact ⟨hnn, r, hr⟩

end ChatApp

namespace ChatApp

/-! ## C9 — shape and order of the metric-vs-time data -/

instance : IsTotal PlotPoint (fun a b => a.date ≤ b.date) :=
  ⟨fun a b => le_total a.date b.date⟩

instance : IsTrans PlotPoint (fun a b => a.date ≤ b.date) :=
  ⟨fun _ _ _ h1 h2 => le_trans h1 h2⟩

theorem toPoint_eq_some {pd : JsonVal → Option Int} {iso : Int → String} {key : String}
    {v : JsonVal} {p : PlotPoint} (h : toPoint pd iso key v = .ok (some p)) :
    ∃ rv t q, dateRaw v = .ok (some rv) ∧ jsTruthy (some rv) = true ∧
      pd rv = some t ∧ p.date = iso t ∧
      extractNum v key = .ok (some q) ∧ p.value = q := by
  cases hdr : dateRaw v with
  | error e =>
      simp only [toPoint, hdr] at h
      exact absurd h (by simp)
  | ok rd =>
      cases hts : titleOf v with
      | error e =>
          simp only [toPoint, hdr, hts] at h
          exact absurd h (by simp)
      | ok title =>
          cases hns : extractNum v key with
          | error e =>
              simp only [toPoint, hdr, hts, hns] at h
              exact absurd h (by simp)
          | ok n =>
              rcases rd with _ | rv
              · simp [toPoint, hdr, hts, hns, jsTruthy] at h
              · by_cases htr : jsTruthy (some rv) = true
                · simp only [toPoint, hdr, hts, hns, htr, if_true] at h
                  rcases hpd : pd rv with _ | tv
                  · rw [hpd] at h
                    rcases n with _ | q <;> simp at h
                  · rw [hpd] at h
                    rcases n with _ | q
                    · simp at h
                    · simp only [Except.ok.injEq, Option.some.injEq] at h
                      refine ⟨rv, tv, q, rfl, htr, hpd, ?_, rfl, ?_⟩
                      · rw [← h]
                      · rw [← h]
                · simp only [toPoint, hdr, hts, hns] at h
                  rw [if_neg htr] at h
                  cases h

/-- The metric-vs-time channel JSON used by the counterexample: one well-formed
video followed by a `null` entry. -/
def nullVidCj2 : JsonVal :=
  .jobj [("videos", .jarr
    [.jobj [("published_at", .jstr "2020-01-03"), ("view_count", .jnum 1)],
     .jnull])]

/-- A concrete stand-in for the Date library in witnesses: `new Date` on the two ISO
strings used by the fixtures, `toISOString().slice(0, 10)` back. -/
def pdEx : JsonVal → Option Int := fun v =>
  match v with
  | .jstr "2020-01-03" => some 3
  | .jstr "2021-01-01" => some 366
  | _ => none

def isoEx : Int → String := fun t => if t = 3 then "2020-01-03" else "2021-01-01"

/-- C9, counterexample: the claim's parenthetical says videos with a missing or
unparseable date or a non-numeric metric value never cause a failure.  A `null`
entry in the videos array — a video with no date at all — makes the property
access `v.published_at` throw a `TypeError` (here `Except.error`), failing the
whole call instead of being silently excluded. -/
theorem C9_counterexample :
    plotMetricVsTimeTool pdEx isoEx nullVidCj2 "view_count" = .error () := rfl

/-- C9, amended: when `plotMetricVsTimeTool` succeeds, every returned data point
comes from a video with a present (truthy) date that the Date library parses and a
numeric metric value — videos that are not `null` but lack these are silently
excluded — and the data list is sorted in non-decreasing order of its ISO date
strings; moreover, when every entry of the videos array is non-`null` the tool
never throws (a `null` entry, by the counterexample, makes it throw). -/
theorem C9_holds (pd : JsonVal → Option Int) (iso : Int → String) (cj : JsonVal)
    (metric : String) :
    (∀ m data, plotMetricVsTimeTool pd iso cj metric = .ok (.chart m data) →
      (∀ p ∈ data, ∃ v ∈ getVideos cj, ∃ rv t q,
        dateRaw v = .ok (some rv) ∧ jsTruthy (some rv) = true ∧ pd rv = some t ∧
        p.date = iso t ∧
        extractNum v (if metric = "" then "view_count" else metric) = .ok (some q) ∧
        p.value = q) ∧
      data.Sorted (fun a b => a.date ≤ b.date)) ∧
    ((∀ v ∈ getVideos cj, v ≠ .jnull) →
      ∃ r, plotMetricVsTimeTool pd iso cj metric = .ok r) := by
  constructor
  · intro m data h
    simp only [plotMetricVsTimeTool] at h
    by_cases hemp : (getVideos cj).isEmpty = true
    · rw [if_pos hemp] at h
      exact absurd h (by simp)
    · rw [if_neg hemp] at h
      cases hm : mapExcept
          (toPoint pd iso (if metric = "" then "view_count" else metric))
          (getVideos cj) with
      | error e =>
          rw [hm] at h
          exact absurd h (by simp)
      | ok pts =>
          simp only [hm] at h
          by_cases hde : ((pts.filterMap id).insertionSort
              (fun a b => a.date ≤ b.date)).isEmpty = true
          · rw [if_pos hde] at h
            exact absurd h (by simp)
          · rw [if_neg hde] at h
            simp only [Except.ok.injEq, PlotOut.chart.injEq] at h
            obtain ⟨hm', hd⟩ := h
            constructor
            · intro p hp
              rw [← hd] at hp
              have hp' : p ∈ pts.filterMap id :=
                ((List.perm_insertionSort _ _).mem_iff).mp hp
              have hsp : some p ∈ pts := by
                rcases List.mem_filterMap.mp hp' with ⟨o, ho, hid⟩
                cases o with
                | none => cases hid
                | some b =>
                    simp only [id] at hid
                    rw [hid] at ho
                    exact ho
              obtain ⟨v, hv, hfv⟩ := mem_of_mapExcept _ hm _ hsp
              obtain ⟨rv, t, q, h1, h2, h3, h4, h5, h6⟩ := toPoint_eq_some hfv
              exact ⟨v, hv, rv, t, q, h1, h2, h3, h4, h5, h6⟩
            · rw [← hd]
              exact List.sorted_insertionSort _ _
  · intro hnn
    by_cases hemp : (getVideos cj).isEmpty = true
    · exact ⟨.errMarker
        "No videos loaded. Please attach a YouTube channel JSON file first.",
        by simp [plotMetricVsTimeTool, hemp]⟩
    · have hok : ∀ v ∈ getVideos cj,
          ∃ o, toPoint pd iso (if metric = "" then "view_count" else metric) v = .ok o :=
        fun v hv => toPoint_ok (hnn v hv) pd iso _
      obtain ⟨pts, hpts⟩ := mapExcept_ok_of_all_ok _ hok
      simp only [plotMetricVsTimeTool]
      rw [if_neg hemp]
      simp only [hpts]
      by_cases hde : ((pts.filterMap id).insertionSort
          (fun a b => a.date ≤ b.date)).isEmpty = true
      · rw [if_pos hde]
        exact ⟨_, rfl⟩
      · rw [if_neg hde]
        exact ⟨_, rfl⟩

/-- The witness channel JSON: one dated video and one with no date (silently
excluded). -/
def chanCj : JsonVal :=
  .jobj [("videos", .jarr
    [.jobj [("published_at", .jstr "2021-01-01"), ("view_count", .jnum 5)],
     .jobj [("title", .jstr "no date")]])]

/-- C9, witness: the amended theorem applied to `chanCj` — the dated video yields
the single sorted data point, the undated one is silently excluded, and the
non-null guarantee yields success. -/
theorem C9_witness :
    plotMetricVsTimeTool pdEx isoEx chanCj "view_count" =
      .ok (.chart "view_count" [⟨"2021-01-01", "", 5⟩]) ∧
    List.Sorted (fun a b : PlotPoint => a.date ≤ b.date)
      ([⟨"2021-01-01", "", 5⟩] : List PlotPoint) ∧
    ∃ r, plotMetricVsTimeTool pdEx isoEx chanCj "view_count" = .ok r := by
  have h : plotMetricVsTimeTool pdEx isoEx chanCj "view_count" =
      .ok (.chart "view_count" [⟨"2021-01-01", "", 5⟩]) := rfl
  have hnn : ∀ v ∈ getVideos chanCj, v ≠ JsonVal.jnull := by
    intro v hv
    have hg : getVideos chanCj =
        [.jobj [("published_at", .jstr "2021-01-01"), ("view_count", .jnum 5)],
         .jobj [("title", .jstr "no date")]] := rfl
    rw [hg] at hv
    rcases hv with _ | ⟨_, hv⟩
    · simp
    · rcases hv with _ | ⟨_, hv⟩
      · simp
      · cases hv
  have hc := ((C9_holds pdEx isoEx chanCj "view_count").1 _ _ h).2
  exact ⟨h, hc, (C9_holds pdEx isoEx chanCj "view_count").2 hnn⟩

end ChatApp
